import Mathlib

/-! QXmpp call manager: a shallow embedding of `src/client/QXmppCallManager.cpp`.

The manager keeps a registry of calls (`QXmppCallManagerPrivate::calls`), one
map of Muji participant states and one map of Muji contents.  Every slot of the
manager is embedded as a function from the private state (and the stanza it
handles) to the new private state together with the ordered list of things the
slot does to the outside: signals it emits, methods of `QXmppCallPrivate` it
invokes, warnings it logs.  Registry writes are logged in the same list, so
that the order of a write relative to an emitted signal can be stated.

`QXmppCall`, `QXmppCallPrivate`, `QXmppJingleIq`, `QXmppPresence` and
`QXmppUtils` are used by the manager but are not part of it; what the manager
reads from them is kept as record fields, and what it asks them to compute is
taken from an environment `Env`.
-/

namespace QXmpp

/-! ## Data model -/

/-- Direction of a call, `QXmppCall::Direction`. -/
inductive Direction where
  | IncomingDirection
  | OutgoingDirection
  deriving DecidableEq, Repr

/-- Type of an IQ stanza, `QXmppIq::Type`. -/
inductive IqType where
  | Error
  | Get
  | Set
  | Result
  deriving DecidableEq, Repr

/-- Modelled from the spec: the enumeration `QXmppJingleIq::Action` is declared in
`QXmppJingleIq.h`, which is not among the sources.  The spec names the actions
session-initiate, session-accept, session-info and session-terminate; every
other action is `Other`. -/
inductive Action where
  | SessionInitiate
  | SessionAccept
  | SessionInfo
  | SessionTerminate
  | Other (code : Nat)
  deriving DecidableEq, Repr

/-- Modelled from the spec: the enumeration `QXmppJingleIq::Reason::Type` is
declared in `QXmppJingleIq.h`, which is not among the sources.  The manager uses
`Gone` and `FailedApplication`; every other reason code is `Other`. -/
inductive Reason where
  | Gone
  | FailedApplication
  | Other (code : Nat)
  deriving DecidableEq, Repr

/-- Modelled from the spec: the enumeration `QXmppPresence::Type` is declared in
`QXmppPresence.h`, which is not among the sources.  The manager only tests for
`Unavailable`. -/
inductive PresenceType where
  | Available
  | Unavailable
  | Other (code : Nat)
  deriving DecidableEq, Repr

/-- The part of `QXmppJingleIq::Content` the manager reads: `creator()`, `name()`
and `descriptionMedia()`.  A default-constructed content has all three empty. -/
structure Content where
  creator : String
  name : String
  descriptionMedia : String
  deriving DecidableEq, Repr

/-- A media stream of a call as `QXmppCallPrivate::createStream(media, creator,
name)` hands it back. -/
structure QXmppCallStream where
  media : String
  creator : String
  name : String
  deriving DecidableEq, Repr

/-- A `QXmppCall` object.  `ptr` is the address of the object: the registry holds
pointers, and `QList::removeAll` compares pointers.  A null entry of `streams`
is `none`. -/
structure QXmppCall where
  ptr : Nat
  jid : String
  direction : Direction
  sid : String
  streams : List (Option QXmppCallStream)
  deriving DecidableEq, Repr

/-- The fields of a `QXmppJingleIq` the manager reads or sets. -/
structure QXmppJingleIq where
  from_ : String
  to_ : String
  type : IqType
  action : Action
  sid : String
  contents : List Content
  ringing : Bool
  deriving DecidableEq, Repr

/-- The fields of a `QXmppIq` the manager reads in `_q_iqReceived`. -/
structure QXmppIq where
  from_ : String
  id : String
  type : IqType
  deriving DecidableEq, Repr

/-- The fields of a `QXmppPresence` the manager reads or sets. -/
structure QXmppPresence where
  from_ : String
  to_ : String
  type : PresenceType
  isPreparingMujiSession : Bool
  mujiContents : List Content
  deriving DecidableEq, Repr

/-- State of a Muji participant,
`std::variant<Preparing, QVector<QXmppJingleIq::Content>>`. -/
inductive MujiParticipantState where
  | Preparing
  | Contents (contents : List Content)
  deriving DecidableEq, Repr

/-- A `QHash<QString, V>` as an association list. -/
abbrev QHash (V : Type) := List (String × V)

/-- `QHash::insert(key, value)`: an existing entry for the key is replaced. -/
def QHash.insert {V : Type} (m : QHash V) (key : String) (value : V) : QHash V :=
  (key, value) :: m.filter (fun kv => kv.1 ≠ key)

/-- The data members of `QXmppCallManagerPrivate` (`QXmppCallManager_p.h`). -/
structure QXmppCallManagerPrivate where
  calls : List QXmppCall
  stunServers : List (String × Nat)
  turnHost : String
  turnPort : Nat
  turnUser : String
  turnPassword : String
  mujiParticipantStates : QHash MujiParticipantState
  mujiContents : QHash (List Content)
  deriving DecidableEq, Repr

/-- What one invocation of a manager slot gets from outside the manager. -/
structure Env where
  /-- `client()->configuration().jid()`, the local identity. -/
  jid : String
  /-- The address `new QXmppCall(...)` returns. -/
  newCall : Nat
  /-- The value `QXmppUtils::generateStanzaHash()` returns. -/
  generateStanzaHash : String
  /-- Whether `QXmppCallPrivate::createStream` can create a stream of a media kind. -/
  streamSupported : String → Bool
  /-- `QXmppCallPrivate::handleDescription(stream, content)`. -/
  handleDescription : QXmppCallStream → Content → Bool
  /-- `QXmppCallPrivate::handleTransport(stream, content)`. -/
  handleTransport : QXmppCallStream → Content → Bool
  /-- `QXmppUtils::jidToBareJid(jid)`. -/
  jidToBareJid : String → String

/-- What a slot of the manager does, in program order. -/
inductive Effect where
  /-- `warning(msg)`: a local log line. -/
  | warning (msg : String)
  /-- `d->calls << call`. -/
  | registered (call : QXmppCall)
  /-- `connect(call, &QObject::destroyed, this, &QXmppCallManager::_q_callDestroyed)`. -/
  | connectDestroyed (call : QXmppCall)
  /-- `emit callStarted(call)`. -/
  | callStarted (call : QXmppCall)
  /-- `emit callReceived(call)`. -/
  | callReceived (call : QXmppCall)
  /-- `call->d->sendInvite()`: sends the session-initiate request. -/
  | sendInvite (call : QXmppCall)
  /-- `call->d->sendAck(iq)`. -/
  | sendAck (call : QXmppCall) (iq : QXmppJingleIq)
  /-- `call->d->sendRequest(iq)`. -/
  | sendRequest (call : QXmppCall) (iq : QXmppJingleIq)
  /-- `call->d->terminate(reason)`. -/
  | terminate (call : QXmppCall) (reason : Reason)
  /-- `call->terminated()`. -/
  | terminated (call : QXmppCall)
  /-- `delete call`. -/
  | deleteCall (call : QXmppCall)
  /-- `call->d->handleRequest(iq)`. -/
  | handleRequest (call : QXmppCall) (iq : QXmppJingleIq)
  /-- `call->d->handleAck(ack)`. -/
  | handleAck (call : QXmppCall) (ack : QXmppIq)
  /-- `emit groupCallParticipantsPrepared(groupChatJid)`. -/
  | groupCallParticipantsPrepared (groupChatJid : String)
  deriving DecidableEq, Repr

/-- Outcome of a `void` slot: the private state afterwards and what was done. -/
structure Run where
  d : QXmppCallManagerPrivate
  trace : List Effect

/-- Outcome of `QXmppCallManager::call`. -/
structure CallRun where
  result : Option QXmppCall
  d : QXmppCallManagerPrivate
  trace : List Effect

/-! ## Operations -/

/-- Modelled from the spec: the constructor of `QXmppCall` is in `QXmppCall.cpp`,
which is not among the sources.  A call is created with its remote address and
direction; it has no SID and no content stream yet. -/
def newQXmppCall (env : Env) (jid : String) (direction : Direction) : QXmppCall :=
  { ptr := env.newCall, jid := jid, direction := direction, sid := "", streams := [] }

/-- Modelled from the spec: `QXmppCallPrivate::createStream` is in `QXmppCall.cpp`,
which is not among the sources.  Stream creation fails (null) for a media kind
that cannot be set up; otherwise the stream is tagged with the media kind, the
creator and the name. -/
def createStream (env : Env) (media creator name : String) : Option QXmppCallStream :=
  if env.streamSupported media then some { media := media, creator := creator, name := name }
  else none

/-- `QXmppCallManagerPrivate::findCall(sid)`: the first registered call with the SID. -/
def findCall (d : QXmppCallManagerPrivate) (sid : String) : Option QXmppCall :=
  d.calls.find? (fun call => call.sid = sid)

/-- `QXmppCallManagerPrivate::findCall(sid, direction)`. -/
def findCallDirection (d : QXmppCallManagerPrivate) (sid : String) (direction : Direction) :
    Option QXmppCall :=
  d.calls.find? (fun call => call.sid = sid ∧ call.direction = direction)

/-- `QXmppCallManager::call(jid)`. -/
def call (env : Env) (d : QXmppCallManagerPrivate) (jid : String) : CallRun :=
  if jid = "" then
    { result := none, d := d, trace := [Effect.warning "Refusing to call an empty jid"] }
  else if jid = env.jid then
    { result := none, d := d, trace := [Effect.warning "Refusing to call self"] }
  else
    let call0 := newQXmppCall env jid Direction.OutgoingDirection
    let stream := createStream env "audio" "initiator" "microphone"
    let call1 := { call0 with streams := call0.streams ++ [stream] }
    let call2 := { call1 with sid := env.generateStanzaHash }
    { result := some call2
      d := { d with calls := d.calls ++ [call2] }
      trace := [Effect.registered call2, Effect.connectDestroyed call2,
                Effect.callStarted call2, Effect.sendInvite call2] }

/-- `QXmppCallManager::_q_callDestroyed(object)`: `d->calls.removeAll(object)`. -/
def _q_callDestroyed (d : QXmppCallManagerPrivate) (object : Nat) : QXmppCallManagerPrivate :=
  { d with calls := d.calls.filter (fun call => call.ptr ≠ object) }

/-- `QXmppCallManager::_q_disconnected()`. -/
def _q_disconnected (d : QXmppCallManagerPrivate) : Run :=
  { d := d, trace := d.calls.map (fun call => Effect.terminate call Reason.Gone) }

/-- `QXmppCallManager::_q_iqReceived(ack)`. -/
def _q_iqReceived (d : QXmppCallManagerPrivate) (ack : QXmppIq) : Run :=
  if ack.type ≠ IqType.Result then
    { d := d, trace := [] }
  else
    { d := d, trace := d.calls.map (fun call => Effect.handleAck call ack) }

/-- The ringing indication built in `_q_jingleIqReceived`: a default-constructed
Jingle IQ with `to`, `type`, `action`, `sid` and `ringing` set. -/
def ringingIq (call : QXmppCall) : QXmppJingleIq :=
  { from_ := "", to_ := call.jid, type := IqType.Set, action := Action.SessionInfo,
    sid := call.sid, contents := [], ringing := true }

/-- The content `_q_jingleIqReceived` builds the stream from:
`iq.contents().isEmpty() ? QXmppJingleIq::Content() : iq.contents().constFirst()`. -/
def offeredContent (iq : QXmppJingleIq) : Content :=
  match iq.contents with
  | [] => { creator := "", name := "", descriptionMedia := "" }
  | first :: _ => first

/-- `QXmppCallManager::_q_jingleIqReceived(iq)`. -/
def _q_jingleIqReceived (env : Env) (d : QXmppCallManagerPrivate) (iq : QXmppJingleIq) : Run :=
  if iq.type ≠ IqType.Set then
    { d := d, trace := [] }
  else if iq.action = Action.SessionInitiate then
    let call0 := newQXmppCall env iq.from_ Direction.IncomingDirection
    let call1 := { call0 with sid := iq.sid }
    let content := offeredContent iq
    match createStream env content.descriptionMedia content.creator content.name with
    | none => { d := d, trace := [] }
    | some stream =>
      let call2 := { call1 with streams := call1.streams ++ [some stream] }
      if !env.handleDescription stream content || !env.handleTransport stream content then
        { d := d
          trace := [Effect.sendAck call2 iq, Effect.terminate call2 Reason.FailedApplication,
                    Effect.terminated call2, Effect.deleteCall call2] }
      else
        { d := { d with calls := d.calls ++ [call2] }
          trace := [Effect.sendAck call2 iq, Effect.registered call2,
                    Effect.connectDestroyed call2, Effect.sendRequest call2 (ringingIq call2),
                    Effect.callReceived call2] }
  else
    match findCall d iq.sid with
    | none =>
      { d := d
        trace := [Effect.warning
          ("Remote party " ++ iq.from_ ++ " sent a request for an unknown call " ++ iq.sid)] }
    | some call => { d := d, trace := [Effect.handleRequest call iq] }

/-- The test of the lambda passed to `std::all_of` in `determineParticipantsPrepared`:
the state holds the content-list alternative. -/
def holdsContents : MujiParticipantState → Bool
  | MujiParticipantState.Contents _ => true
  | MujiParticipantState.Preparing => false

/-- The lambda `determineParticipantsPrepared` of `_q_presenceReceived`. -/
def determineParticipantsPrepared (env : Env) (d : QXmppCallManagerPrivate)
    (presence : QXmppPresence) : List Effect :=
  let allParticipantsPrepared := d.mujiParticipantStates.all (fun kv => holdsContents kv.2)
  if allParticipantsPrepared then
    [Effect.groupCallParticipantsPrepared (env.jidToBareJid presence.from_)]
  else []

/-- The first part of `_q_presenceReceived`: the Muji bookkeeping. -/
def presenceMuji (env : Env) (d : QXmppCallManagerPrivate) (presence : QXmppPresence) : Run :=
  if presence.from_ = env.jid then
    { d := d, trace := determineParticipantsPrepared env d presence }
  else if presence.isPreparingMujiSession then
    let states := QHash.insert d.mujiParticipantStates presence.from_
      MujiParticipantState.Preparing
    let d1 := { d with mujiParticipantStates := states }
    { d := d1, trace := [] }
  else if presence.mujiContents ≠ [] then
    let states := QHash.insert d.mujiParticipantStates presence.from_
      (MujiParticipantState.Contents presence.mujiContents)
    let d1 := { d with mujiParticipantStates := states }
    { d := d1, trace := determineParticipantsPrepared env d1 presence }
  else
    { d := d, trace := [] }

/-- The second part of `_q_presenceReceived`: calls whose peer has gone away. -/
def presenceUnavailable (d : QXmppCallManagerPrivate) (presence : QXmppPresence) : List Effect :=
  if presence.type = PresenceType.Unavailable then
    (d.calls.filter (fun call => presence.from_ = call.jid)).map
      (fun call => Effect.terminate call Reason.Gone)
  else []

/-- `QXmppCallManager::_q_presenceReceived(presence)`. -/
def _q_presenceReceived (env : Env) (d : QXmppCallManagerPrivate) (presence : QXmppPresence) :
    Run :=
  let muji := presenceMuji env d presence
  { d := muji.d, trace := muji.trace ++ presenceUnavailable muji.d presence }

/-- The `destroyed` signal of each object of a list, in turn. -/
def disposeAll (d : QXmppCallManagerPrivate) (objects : List Nat) : QXmppCallManagerPrivate :=
  objects.foldl _q_callDestroyed d

/-- A sequence of presences handled one after the other. -/
def presencesReceived (env : Env) (d : QXmppCallManagerPrivate) : List QXmppPresence → Run
  | [] => { d := d, trace := [] }
  | presence :: rest =>
    let first := _q_presenceReceived env d presence
    let others := presencesReceived env first.d rest
    { d := others.d, trace := first.trace ++ others.trace }

/-! ## Observations on what a slot did -/

/-- The calls terminated in a trace, each with its reason, in order. -/
def terminations : List Effect → List (QXmppCall × Reason)
  | [] => []
  | Effect.terminate call reason :: rest => (call, reason) :: terminations rest
  | _ :: rest => terminations rest

/-- The group identifiers `groupCallParticipantsPrepared` was emitted with, in order. -/
def preparedEvents : List Effect → List String
  | [] => []
  | Effect.groupCallParticipantsPrepared groupChatJid :: rest =>
    groupChatJid :: preparedEvents rest
  | _ :: rest => preparedEvents rest

/-- Convergence of one group in the spec's words: every known participant of the
group `groupChatJid` is Ready.  A participant belongs to the group its bare JID
names. -/
def groupParticipantsReady (env : Env) (states : QHash MujiParticipantState)
    (groupChatJid : String) : Bool :=
  states.all (fun kv => decide (env.jidToBareJid kv.1 ≠ groupChatJid) || holdsContents kv.2)

/-- `QHash::find(key)`: the value stored for the key, if any. -/
def QHash.find {V : Type} (m : QHash V) (key : String) : Option V :=
  (List.find? (fun kv => decide (kv.1 = key)) m).map (fun kv => kv.2)

/-- The SIDs of the registered calls, in registry order. -/
def registeredSids (d : QXmppCallManagerPrivate) : List String :=
  d.calls.map (fun call => call.sid)

/-- No two registered calls share a SID. -/
def sidsUnique (d : QXmppCallManagerPrivate) : Prop :=
  (registeredSids d).Nodup

/-! ## Group-call preparation

`prepareGroupCall` returns at once with a future; the rest of its work is done by
the lambdas it nests: the one awaiting the first send, the slot it connects to
`groupCallParticipantsPrepared`, and the one awaiting the second send.  Each
lambda is embedded as a function of its own, and `deliver` invokes the lambda
that is pending when a send finishes or the signal is emitted. -/

/-- Modelled from the spec: `QXmpp::SendResult` is declared in `QXmppSendResult.h`,
which is not among the sources.  A send either succeeds or yields a typed send
error. -/
inductive SendResult where
  | SendSuccess
  | SendError (text : String)
  deriving DecidableEq, Repr

/-- Modelled from the spec: the constructor of `QXmppPresence` is in
`QXmppPresence.cpp`, which is not among the sources.  A fresh presence has no
sender, no recipient, no preparing flag and an empty content list. -/
def newQXmppPresence : QXmppPresence :=
  { from_ := "", to_ := "", type := PresenceType.Available, isPreparingMujiSession := false,
    mujiContents := [] }

/-- What the group-call preparation does, in program order. -/
inductive MujiEffect where
  /-- `q->client()->send(std::move(presence))`. -/
  | send (presence : QXmppPresence)
  /-- `q->connect(q, &QXmppCallManager::groupCallParticipantsPrepared, slot)`. -/
  | connectPrepared
  /-- `q->disconnect(q, &QXmppCallManager::groupCallParticipantsPrepared, nullptr, nullptr)`. -/
  | disconnectPrepared
  /-- `preparation(presence)`: the function given to `prepareGroupCall` is invoked. -/
  | preparation (presence : QXmppPresence)
  /-- `reportFinishedResult(interface, result)`. -/
  | reportFinishedResult (result : SendResult)
  deriving DecidableEq, Repr

/-- The function object `F preparation` of `prepareGroupCall`: it may change the
private state it captured and the presence it is given. -/
abbrev Preparation :=
  QXmppCallManagerPrivate → QXmppPresence → QXmppCallManagerPrivate × QXmppPresence

/-- Which lambda of one `prepareGroupCall` invocation is pending. -/
inductive PrepareStage where
  /-- The lambda given to the first `await`. -/
  | awaitingFirstSend
  /-- The slot connected to `groupCallParticipantsPrepared`. -/
  | connected
  /-- The lambda given to the second `await`. -/
  | awaitingSecondSend
  /-- None. -/
  | finished
  deriving DecidableEq, Repr

/-- One `prepareGroupCall` invocation: the private state, the pending lambda, what
the returned future holds and what was done so far. -/
structure PrepareRun where
  d : QXmppCallManagerPrivate
  stage : PrepareStage
  result : Option SendResult
  trace : List MujiEffect
  deriving DecidableEq, Repr

/-- `QXmppCallManagerPrivate::prepareGroupCall(groupChatJid, preparation)` up to its
`return interface.future()`. -/
def prepareGroupCall (d : QXmppCallManagerPrivate) (groupChatJid : String) : PrepareRun :=
  let presence := { newQXmppPresence with to_ := groupChatJid, isPreparingMujiSession := true }
  { d := d, stage := PrepareStage.awaitingFirstSend, result := none,
    trace := [MujiEffect.send presence] }

/-- The lambda awaiting the first send. -/
def firstSendFinished (run : PrepareRun) (result : SendResult) : PrepareRun :=
  match result with
  | SendResult.SendError text =>
    { run with
      stage := PrepareStage.finished,
      result := some (SendResult.SendError text),
      trace := run.trace ++ [MujiEffect.reportFinishedResult (SendResult.SendError text)] }
  | SendResult.SendSuccess =>
    { run with
      stage := PrepareStage.connected,
      trace := run.trace ++ [MujiEffect.connectPrepared] }

/-- The slot connected to `groupCallParticipantsPrepared`.  Its parameter
`groupChatJid` hides the argument of `prepareGroupCall` of the same name. -/
def preparedSlot (preparation : Preparation) (run : PrepareRun) (groupChatJid : String) :
    PrepareRun :=
  let presence := { newQXmppPresence with to_ := groupChatJid }
  let prepared := preparation run.d presence
  { d := prepared.1, stage := PrepareStage.awaitingSecondSend, result := run.result,
    trace := run.trace ++ [MujiEffect.disconnectPrepared, MujiEffect.preparation presence,
                           MujiEffect.send prepared.2] }

/-- The lambda awaiting the second send. -/
def secondSendFinished (run : PrepareRun) (result : SendResult) : PrepareRun :=
  { run with
    stage := PrepareStage.finished,
    result := some result,
    trace := run.trace ++ [MujiEffect.reportFinishedResult result] }

/-- What can happen to a pending `prepareGroupCall` invocation. -/
inductive MujiEvent where
  /-- The future of the first send finishes. -/
  | firstSendFinished (result : SendResult)
  /-- The manager emits `groupCallParticipantsPrepared(groupChatJid)`. -/
  | groupCallParticipantsPrepared (groupChatJid : String)
  /-- The future of the second send finishes. -/
  | secondSendFinished (result : SendResult)
  deriving DecidableEq, Repr

/-- An event invokes the lambda pending for it, if there is one. -/
def deliver (preparation : Preparation) (run : PrepareRun) : MujiEvent → PrepareRun
  | MujiEvent.firstSendFinished result =>
    if run.stage = PrepareStage.awaitingFirstSend then firstSendFinished run result else run
  | MujiEvent.groupCallParticipantsPrepared groupChatJid =>
    if run.stage = PrepareStage.connected then preparedSlot preparation run groupChatJid
    else run
  | MujiEvent.secondSendFinished result =>
    if run.stage = PrepareStage.awaitingSecondSend then secondSendFinished run result else run

/-- A sequence of events, delivered in order. -/
def deliverAll (preparation : Preparation) (run : PrepareRun) (events : List MujiEvent) :
    PrepareRun :=
  events.foldl (deliver preparation) run

/-- `QHash::value(key)`: the list stored for the key, empty when there is none. -/
def QHash.value {V : Type} (m : QHash (List V)) (key : String) : List V :=
  (QHash.find m key).getD []

/-- The loop of `prepareMujiContentRemoval`: the first entry whose creator and name
both match is erased and the loop is left. -/
def eraseFirstContent (contentCreator contentName : String) : List Content → List Content
  | [] => []
  | content :: rest =>
    if content.creator = contentCreator ∧ content.name = contentName then rest
    else content :: eraseFirstContent contentCreator contentName rest

/-- Outcome of a private method that sends one stanza and returns the future of
that send: the private state afterwards and what was done. -/
structure MujiRun where
  d : QXmppCallManagerPrivate
  trace : List MujiEffect
  deriving DecidableEq, Repr

/-- `QXmppCallManagerPrivate::prepareMujiContentRemoval(groupChatJid, contentCreator,
contentName)`.  The future it returns is the one of its send. -/
def prepareMujiContentRemoval (d : QXmppCallManagerPrivate)
    (groupChatJid contentCreator contentName : String) : MujiRun :=
  let presence := { newQXmppPresence with to_ := groupChatJid }
  let groupChatMujiContents :=
    eraseFirstContent contentCreator contentName (QHash.value d.mujiContents groupChatJid)
  let d1 := { d with
    mujiContents := QHash.insert d.mujiContents groupChatJid groupChatMujiContents }
  { d := d1, trace := [MujiEffect.send { presence with mujiContents := groupChatMujiContents }] }

/-- The mutation the spec gives `removeContent`: it removes the first entry with
the creator and the name from the content list of the group chat and sets the
resulting list on the presence. -/
def removalPreparation (groupChatJid contentCreator contentName : String) : Preparation :=
  fun d presence =>
    let groupChatMujiContents :=
      eraseFirstContent contentCreator contentName (QHash.value d.mujiContents groupChatJid)
    ({ d with mujiContents := QHash.insert d.mujiContents groupChatJid groupChatMujiContents },
     { presence with mujiContents := groupChatMujiContents })

/-- The spec's `removeContent(groupId, creator, name)`: `prepare` whose mutation is
`removalPreparation`, followed through the events that reach it. -/
def removeContentSpec (d : QXmppCallManagerPrivate)
    (groupChatJid contentCreator contentName : String) (events : List MujiEvent) : PrepareRun :=
  deliverAll (removalPreparation groupChatJid contentCreator contentName)
    (prepareGroupCall d groupChatJid) events

/-! ## vCard manager (`src/client/QXmppVCardManager.cpp`) -/

/-- The error types `handleStanza` tells apart (`QXmppStanza::Error::Type`, declared
in `QXmppStanza.h`, which is not among the sources): `Cancel` and any other. -/
inductive ErrorType where
  | Cancel
  | Other (code : Nat)
  deriving DecidableEq, Repr

/-- The error conditions `handleStanza` tells apart (`QXmppStanza::Error::Condition`):
`ServiceUnavailable`, `ItemNotFound` and any other. -/
inductive ErrorCondition where
  | ServiceUnavailable
  | ItemNotFound
  | Other (code : Nat)
  deriving DecidableEq, Repr

/-- The part of `QXmppStanza::Error` the manager reads. -/
structure StanzaError where
  type : ErrorType
  condition : ErrorCondition
  deriving DecidableEq, Repr

/-- The fields of a `QXmppVCardIq` the manager and its test read or set. -/
structure QXmppVCardIq where
  from_ : String
  to_ : String
  type : IqType
  error : StanzaError
  fullName : String
  deriving DecidableEq, Repr

/-- What `handleStanza` learns from the DOM element: its tag name, whether
`QXmppVCardIq::isVCard(element)` holds, and the IQ `parse(element)` yields. -/
structure QDomElement where
  tagName : String
  isVCard : Bool
  vCardIq : QXmppVCardIq
  deriving DecidableEq, Repr

/-- The data members of `QXmppVCardManagerPrivate`. -/
structure QXmppVCardManagerPrivate where
  ownVCard : QXmppVCardIq
  isOwnVCardReceived : Bool
  deriving DecidableEq, Repr

/-- What the vCard manager gets from outside. -/
structure VCardEnv where
  /-- `client()->configuration().jidBare()`. -/
  jidBare : String
  /-- The object `QXmppVCardIq()` constructs. -/
  emptyVCardIq : QXmppVCardIq
  /-- The comparison `vCardIq == QXmppVCardIq()`. -/
  equalsEmptyVCardIq : QXmppVCardIq → Bool

/-- The signals of `QXmppVCardManager`. -/
inductive VCardSignal where
  | contactVCardReceived (vCardIq : QXmppVCardIq)
  | ownVCardReceived (vCardIq : QXmppVCardIq)
  | noContactVCardExists
  | noOwnVCardExists
  deriving DecidableEq, Repr

/-- Outcome of `QXmppVCardManager::handleStanza`: the value returned, the private
state afterwards and the signals emitted, in order. -/
structure VCardRun where
  accepted : Bool
  d : QXmppVCardManagerPrivate
  trace : List VCardSignal
  deriving DecidableEq, Repr

/-- `QXmppVCardManager::QXmppVCardManager()`: the own vCard is default-constructed
and `isOwnVCardReceived` is set to false. -/
def QXmppVCardManager.new (env : VCardEnv) : QXmppVCardManagerPrivate :=
  { ownVCard := env.emptyVCardIq, isOwnVCardReceived := false }

/-- `QXmppVCardManager::handleStanza(element)`. -/
def QXmppVCardManager.handleStanza (env : VCardEnv) (d : QXmppVCardManagerPrivate)
    (element : QDomElement) : VCardRun :=
  if element.tagName = "iq" ∧ element.isVCard = true then
    let vCardIq := element.vCardIq
    if vCardIq.type = IqType.Error ∧ vCardIq.error.type = ErrorType.Cancel then
      match vCardIq.error.condition with
      | ErrorCondition.ServiceUnavailable =>
        { accepted := true, d := d, trace := [VCardSignal.noContactVCardExists] }
      | ErrorCondition.ItemNotFound =>
        { accepted := true, d := { d with ownVCard := env.emptyVCardIq },
          trace := [VCardSignal.noOwnVCardExists] }
      | ErrorCondition.Other _ => { accepted := false, d := d, trace := [] }
    else if vCardIq.from_ = "" ∨ vCardIq.from_ = env.jidBare then
      let d1 := { d with ownVCard := vCardIq }
      if env.equalsEmptyVCardIq vCardIq then
        { accepted := true, d := d1, trace := [VCardSignal.noOwnVCardExists] }
      else
        { accepted := true, d := { d1 with isOwnVCardReceived := true },
          trace := [VCardSignal.ownVCardReceived vCardIq] }
    else
      { accepted := true, d := d, trace := [VCardSignal.contactVCardReceived vCardIq] }
  else
    { accepted := false, d := d, trace := [] }

/-! ## Sample data used by the concrete instances below -/

/-- A private state with an empty registry and no Muji bookkeeping. -/
def emptyManager : QXmppCallManagerPrivate :=
  { calls := [], stunServers := [], turnHost := "", turnPort := 0, turnUser := "",
    turnPassword := "", mujiParticipantStates := [], mujiContents := [] }

/-- The part of an address before its first slash. -/
def bareJidOf (jid : String) : String :=
  String.mk (jid.toList.takeWhile (fun ch => ch ≠ '/'))

/-- An environment of the client `alice@example.com/desk`: audio and video streams
can be created, and every offered description and transport is accepted. -/
def aliceEnv : Env :=
  { jid := "alice@example.com/desk", newCall := 7, generateStanzaHash := "sid-42",
    streamSupported := fun media => media = "audio" ∨ media = "video",
    handleDescription := fun _ _ => true,
    handleTransport := fun _ _ => true,
    jidToBareJid := bareJidOf }

/-- An outgoing call to Bob, registered earlier, with SID `sid-42`. -/
def bobCall : QXmppCall :=
  { ptr := 3, jid := "bob@example.com/phone", direction := Direction.OutgoingDirection,
    sid := "sid-42", streams := [some { media := "audio", creator := "initiator",
                                        name := "microphone" }] }

/-- An incoming call from Carol, registered earlier, with SID `sid-9`. -/
def carolCall : QXmppCall :=
  { ptr := 4, jid := "carol@example.com/pad", direction := Direction.IncomingDirection,
    sid := "sid-9", streams := [some { media := "audio", creator := "initiator",
                                       name := "voice" }] }

/-- The environment of Alice on a host where no media stream can be created. -/
def noMediaEnv : Env :=
  { aliceEnv with streamSupported := fun _ => false }

/-- A private state whose registry holds the call from Carol. -/
def carolManager : QXmppCallManagerPrivate :=
  { emptyManager with calls := [carolCall] }

/-- A private state whose registry holds the calls to Bob and from Carol. -/
def busyManager : QXmppCallManagerPrivate :=
  { emptyManager with calls := [bobCall, carolCall] }

/-- The environment of Alice when every offered transport is rejected. -/
def strictEnv : Env :=
  { aliceEnv with handleTransport := fun _ _ => false }

/-- A session-initiate request from Erin offering one audio content, SID `sid-77`. -/
def erinInitiate : QXmppJingleIq :=
  { from_ := "erin@example.com/laptop", to_ := "alice@example.com/desk", type := IqType.Set,
    action := Action.SessionInitiate, sid := "sid-77",
    contents := [{ creator := "initiator", name := "voice", descriptionMedia := "audio" }],
    ringing := false }

/-- A session-initiate request from Erin offering a whiteboard content. -/
def whiteboardInitiate : QXmppJingleIq :=
  { erinInitiate with
    contents := [{ creator := "initiator", name := "board", descriptionMedia := "whiteboard" }] }

/-- A session-terminate request from Carol for the call with SID `sid-9`. -/
def carolTerminate : QXmppJingleIq :=
  { from_ := "carol@example.com/pad", to_ := "alice@example.com/desk", type := IqType.Set,
    action := Action.SessionTerminate, sid := "sid-9", contents := [], ringing := false }

/-- A session-terminate request from Carol for a call nobody registered. -/
def staleTerminate : QXmppJingleIq :=
  { carolTerminate with sid := "sid-1000" }

/-- Carol's client goes offline. -/
def carolUnavailable : QXmppPresence :=
  { from_ := "carol@example.com/pad", to_ := "alice@example.com/desk",
    type := PresenceType.Unavailable, isPreparingMujiSession := false, mujiContents := [] }

/-- Paul, in the room, announces that he prepares a Muji session. -/
def paulPreparing : QXmppPresence :=
  { from_ := "room@conf.example.com/paul", to_ := "alice@example.com/desk",
    type := PresenceType.Available, isPreparingMujiSession := true, mujiContents := [] }

/-- Paul, in the room, publishes one content. -/
def paulReady : QXmppPresence :=
  { paulPreparing with
    isPreparingMujiSession := false,
    mujiContents := [{ creator := "initiator", name := "voice", descriptionMedia := "audio" }] }

/-- Rita, in the room, publishes two contents. -/
def ritaReady : QXmppPresence :=
  { from_ := "room@conf.example.com/rita", to_ := "alice@example.com/desk",
    type := PresenceType.Available, isPreparingMujiSession := false,
    mujiContents := [{ creator := "initiator", name := "voice", descriptionMedia := "audio" },
                     { creator := "initiator", name := "webcam", descriptionMedia := "video" }] }

/-- A private state in which Quinn, a participant of another group chat (the
lobby), is recorded as preparing. -/
def lobbyManager : QXmppCallManagerPrivate :=
  { emptyManager with
    mujiParticipantStates := [("lobby@conf.example.com/quinn", MujiParticipantState.Preparing)] }

/-- An acknowledgement from Carol. -/
def carolAck : QXmppIq :=
  { from_ := "carol@example.com/pad", id := "req-5", type := IqType.Result }

/-- A session-initiate request from Erin that carries the SID of the registered
call from Carol. -/
def erinReusedSid : QXmppJingleIq :=
  { erinInitiate with sid := "sid-9" }

/-- The microphone content of the local client. -/
def micContent : Content :=
  { creator := "initiator", name := "microphone", descriptionMedia := "audio" }

/-- The webcam content of the local client. -/
def camContent : Content :=
  { creator := "initiator", name := "webcam", descriptionMedia := "video" }

/-- A private state in which the room has the microphone and the webcam content. -/
def roomManager : QXmppCallManagerPrivate :=
  { emptyManager with mujiContents := [("room@conf.example.com", [micContent, camContent])] }

/-- The environment of the test of the vCard manager: the client of
`stpeter@jabber.org`; a vCard IQ equals the empty one when no full name is set. -/
def peterEnv : VCardEnv :=
  { jidBare := "stpeter@jabber.org",
    emptyVCardIq := { from_ := "", to_ := "", type := IqType.Get,
                      error := { type := ErrorType.Other 0, condition := ErrorCondition.Other 0 },
                      fullName := "" },
    equalsEmptyVCardIq := fun vCardIq => vCardIq.fullName = "" }

/-- The row `iqWithFromAttributeForOwnVCard` of the test. -/
def iqWithFromAttributeForOwnVCard : QDomElement :=
  { tagName := "iq", isVCard := true,
    vCardIq := { from_ := "stpeter@jabber.org", to_ := "stpeter@jabber.org/roundabout",
                 type := IqType.Result,
                 error := { type := ErrorType.Other 0, condition := ErrorCondition.Other 0 },
                 fullName := "Peter Saint-Andre" } }

/-- The row `iqForContactVCard` of the test. -/
def iqForContactVCard : QDomElement :=
  { tagName := "iq", isVCard := true,
    vCardIq := { from_ := "jer@jabber.org", to_ := "stpeter@jabber.org/roundabout",
                 type := IqType.Result,
                 error := { type := ErrorType.Other 0, condition := ErrorCondition.Other 0 },
                 fullName := "JeremieMiller" } }

/-- A vCard IQ without sender that carries a full name and a cancel error whose
condition is neither service-unavailable nor item-not-found. -/
def iqWithOtherCancelError : QDomElement :=
  { tagName := "iq", isVCard := true,
    vCardIq := { from_ := "", to_ := "stpeter@jabber.org/roundabout", type := IqType.Error,
                 error := { type := ErrorType.Cancel, condition := ErrorCondition.Other 409 },
                 fullName := "Peter Saint-Andre" } }

/-! ## Theorems -/

/-- C1: for a target address that is empty or equal to the local identity, and for
every private state, `call` returns null, leaves the private state (the registry
with it) as it was, and does nothing but log a warning: no stanza is sent and
`callStarted` is not emitted. -/
theorem call_refuses_empty_or_self (env : Env) (d : QXmppCallManagerPrivate) (jid : String)
    (h : jid = "" ∨ jid = env.jid) :
    (call env d jid).result = none ∧ (call env d jid).d = d ∧
      ∀ e ∈ (call env d jid).trace, ∃ msg, e = Effect.warning msg := by
  unfold call
  by_cases h1 : jid = ""
  · simp [h1]
  · have h2 : jid = env.jid := h.resolve_left h1
    rw [if_neg h1, if_pos h2]
    simp

/-- C1 at a concrete input: Alice calling her own address while two calls are
registered. -/
theorem call_refuses_empty_or_self_witness :
    ("alice@example.com/desk" = "" ∨ "alice@example.com/desk" = aliceEnv.jid) ∧
      (call aliceEnv busyManager "alice@example.com/desk").result = none ∧
      (call aliceEnv busyManager "alice@example.com/desk").d = busyManager ∧
      ∀ e ∈ (call aliceEnv busyManager "alice@example.com/desk").trace,
        ∃ msg, e = Effect.warning msg :=
  ⟨Or.inr rfl, call_refuses_empty_or_self aliceEnv busyManager "alice@example.com/desk"
    (Or.inr rfl)⟩

/-- C2 as stated fails: with the registry holding the call to Bob (SID `sid-42`),
`generateStanzaHash` returning `sid-42` and stream creation failing, `call` to
Dave registers a call whose only stream entry is null and whose SID is the SID of
the registered call to Bob. -/
theorem call_sid_not_checked_counterexample :
    ∃ c : QXmppCall,
      (call noMediaEnv busyManager "dave@example.com").result = some c ∧
      c.streams = [none] ∧
      bobCall ∈ (call noMediaEnv busyManager "dave@example.com").d.calls ∧
      bobCall ≠ c ∧ bobCall.sid = c.sid :=
  ⟨{ ptr := 7, jid := "dave@example.com", direction := Direction.OutgoingDirection,
     sid := "sid-42", streams := [none] }, by decide⟩

/-- C2 (amended): for a target address that is non-empty and different from the
local identity, when the audio stream can be created, `call` returns an outgoing
call to that address holding exactly one stream, of media audio, creator
"initiator" and name "microphone"; its SID is the value `generateStanzaHash`
returned; the registry afterwards is the previous registry followed by that call
and nothing else of the private state changes; after the registration
`callStarted` is emitted once with that call, and then the session-initiate
request is sent.  The SID differs from the SID of every previously registered
call exactly when the generated value is not the SID of a registered call. -/
theorem call_registers_outgoing_call (env : Env) (d : QXmppCallManagerPrivate) (jid : String)
    (hne : jid ≠ "") (hself : jid ≠ env.jid) (haudio : env.streamSupported "audio" = true) :
    ∃ c : QXmppCall,
      (call env d jid).result = some c ∧
      c.jid = jid ∧ c.direction = Direction.OutgoingDirection ∧
      c.streams = [some { media := "audio", creator := "initiator", name := "microphone" }] ∧
      c.sid = env.generateStanzaHash ∧
      (call env d jid).d = { d with calls := d.calls ++ [c] } ∧
      (call env d jid).trace =
        [Effect.registered c, Effect.connectDestroyed c, Effect.callStarted c,
         Effect.sendInvite c] ∧
      ((∀ other ∈ d.calls, other.sid ≠ c.sid) ↔
        env.generateStanzaHash ∉ d.calls.map (fun other => other.sid)) := by
  refine ⟨{ ptr := env.newCall, jid := jid, direction := Direction.OutgoingDirection,
            sid := env.generateStanzaHash,
            streams := [some { media := "audio", creator := "initiator",
                               name := "microphone" }] }, ?_, rfl, rfl, rfl, rfl, ?_, ?_, ?_⟩
  · simp [call, hne, hself, createStream, haudio, newQXmppCall]
  · simp [call, hne, hself, createStream, haudio, newQXmppCall]
  · simp [call, hne, hself, createStream, haudio, newQXmppCall]
  · constructor
    · intro h hmem
      obtain ⟨other, hother, hsid⟩ := List.mem_map.1 hmem
      exact h other hother hsid
    · intro h other hother hsid
      exact h (List.mem_map.2 ⟨other, hother, hsid⟩)

/-- C2 (amended) at a concrete input: Alice calls Dave while only the call from
Carol (SID `sid-9`) is registered and `generateStanzaHash` returns `sid-42`. -/
theorem call_registers_outgoing_call_witness :
    ∃ c : QXmppCall,
      (call aliceEnv carolManager "dave@example.com").result = some c ∧
      c.jid = "dave@example.com" ∧ c.direction = Direction.OutgoingDirection ∧
      c.streams = [some { media := "audio", creator := "initiator", name := "microphone" }] ∧
      c.sid = aliceEnv.generateStanzaHash ∧
      (call aliceEnv carolManager "dave@example.com").d =
        { carolManager with calls := carolManager.calls ++ [c] } ∧
      (call aliceEnv carolManager "dave@example.com").trace =
        [Effect.registered c, Effect.connectDestroyed c, Effect.callStarted c,
         Effect.sendInvite c] ∧
      ((∀ other ∈ carolManager.calls, other.sid ≠ c.sid) ↔
        aliceEnv.generateStanzaHash ∉ carolManager.calls.map (fun other => other.sid)) :=
  call_registers_outgoing_call aliceEnv carolManager "dave@example.com" (by decide) (by decide)
    (by decide)

/-- C3: a session-initiate request of type Set whose first offered content (the
empty content when none is offered) names a media kind for which stream creation
fails leaves the private state, the registry with it, unchanged and does
nothing at all: no acknowledgement, no ringing indication, no session-terminate
and no `callReceived`. -/
theorem initiate_unsupported_media_abandoned (env : Env) (d : QXmppCallManagerPrivate)
    (iq : QXmppJingleIq) (hset : iq.type = IqType.Set)
    (hact : iq.action = Action.SessionInitiate)
    (hfail : createStream env (offeredContent iq).descriptionMedia (offeredContent iq).creator
      (offeredContent iq).name = none) :
    (_q_jingleIqReceived env d iq).d = d ∧ (_q_jingleIqReceived env d iq).trace = [] := by
  unfold _q_jingleIqReceived
  simp [hset, hact, hfail]

/-- C3 at a concrete input: Erin offers a whiteboard, which Alice cannot set up. -/
theorem initiate_unsupported_media_abandoned_witness :
    (_q_jingleIqReceived aliceEnv busyManager whiteboardInitiate).d = busyManager ∧
      (_q_jingleIqReceived aliceEnv busyManager whiteboardInitiate).trace = [] :=
  initiate_unsupported_media_abandoned aliceEnv busyManager whiteboardInitiate rfl rfl
    (by decide)

/-- C4: for a session-initiate request of type Set for which the stream is
created but the offered description or the offered transport is rejected, the
manager sends the acknowledgement, then terminates the call with reason
`FailedApplication`, then invokes the call's `terminated()` and deletes the call;
the private state, the registry with it, is unchanged, no ringing indication is
sent and `callReceived` is not emitted. -/
theorem initiate_validation_failure (env : Env) (d : QXmppCallManagerPrivate)
    (iq : QXmppJingleIq) (stream : QXmppCallStream) (hset : iq.type = IqType.Set)
    (hact : iq.action = Action.SessionInitiate)
    (hstream : createStream env (offeredContent iq).descriptionMedia (offeredContent iq).creator
      (offeredContent iq).name = some stream)
    (hbad : env.handleDescription stream (offeredContent iq) = false ∨
      env.handleTransport stream (offeredContent iq) = false) :
    ∃ c : QXmppCall,
      c.jid = iq.from_ ∧ c.sid = iq.sid ∧ c.direction = Direction.IncomingDirection ∧
      c.streams = [some stream] ∧
      (_q_jingleIqReceived env d iq).d = d ∧
      (_q_jingleIqReceived env d iq).trace =
        [Effect.sendAck c iq, Effect.terminate c Reason.FailedApplication,
         Effect.terminated c, Effect.deleteCall c] := by
  refine ⟨{ ptr := env.newCall, jid := iq.from_, direction := Direction.IncomingDirection,
            sid := iq.sid, streams := [some stream] }, rfl, rfl, rfl, rfl, ?_, ?_⟩
  · unfold _q_jingleIqReceived
    rcases hbad with h | h <;> simp [hset, hact, hstream, h, newQXmppCall]
  · unfold _q_jingleIqReceived
    rcases hbad with h | h <;> simp [hset, hact, hstream, h, newQXmppCall]

/-- C4 at a concrete input: Erin offers audio, the transport is rejected. -/
theorem initiate_validation_failure_witness :
    ∃ c : QXmppCall,
      c.jid = erinInitiate.from_ ∧ c.sid = erinInitiate.sid ∧
      c.direction = Direction.IncomingDirection ∧
      c.streams = [some { media := "audio", creator := "initiator", name := "voice" }] ∧
      (_q_jingleIqReceived strictEnv busyManager erinInitiate).d = busyManager ∧
      (_q_jingleIqReceived strictEnv busyManager erinInitiate).trace =
        [Effect.sendAck c erinInitiate, Effect.terminate c Reason.FailedApplication,
         Effect.terminated c, Effect.deleteCall c] :=
  initiate_validation_failure strictEnv busyManager erinInitiate
    { media := "audio", creator := "initiator", name := "voice" } rfl rfl (by decide)
    (Or.inr rfl)

/-- C5: for a session-initiate request of type Set for which the stream is
created and both the offered description and the offered transport are
accepted, the registry afterwards is the previous registry followed by one
incoming call whose SID is the request's SID and whose remote address is the
request's sender, and nothing else of the private state changes; the manager
sends the acknowledgement, registers the call, sends a session-info request of
type Set with the ringing indicator, addressed to the sender and carrying the
same SID, and then emits `callReceived` once with that call. -/
theorem initiate_accepted_registers_call (env : Env) (d : QXmppCallManagerPrivate)
    (iq : QXmppJingleIq) (stream : QXmppCallStream) (hset : iq.type = IqType.Set)
    (hact : iq.action = Action.SessionInitiate)
    (hstream : createStream env (offeredContent iq).descriptionMedia (offeredContent iq).creator
      (offeredContent iq).name = some stream)
    (hdesc : env.handleDescription stream (offeredContent iq) = true)
    (htrans : env.handleTransport stream (offeredContent iq) = true) :
    ∃ (c : QXmppCall) (ringing : QXmppJingleIq),
      c.jid = iq.from_ ∧ c.sid = iq.sid ∧ c.direction = Direction.IncomingDirection ∧
      c.streams = [some stream] ∧
      ringing.to_ = iq.from_ ∧ ringing.sid = iq.sid ∧ ringing.type = IqType.Set ∧
      ringing.action = Action.SessionInfo ∧ ringing.ringing = true ∧
      (_q_jingleIqReceived env d iq).d = { d with calls := d.calls ++ [c] } ∧
      (_q_jingleIqReceived env d iq).trace =
        [Effect.sendAck c iq, Effect.registered c, Effect.connectDestroyed c,
         Effect.sendRequest c ringing, Effect.callReceived c] := by
  refine ⟨{ ptr := env.newCall, jid := iq.from_, direction := Direction.IncomingDirection,
            sid := iq.sid, streams := [some stream] },
          { from_ := "", to_ := iq.from_, type := IqType.Set, action := Action.SessionInfo,
            sid := iq.sid, contents := [], ringing := true },
          rfl, rfl, rfl, rfl, rfl, rfl, rfl, rfl, rfl, ?_, ?_⟩
  · unfold _q_jingleIqReceived
    simp [hset, hact, hstream, hdesc, htrans, newQXmppCall]
  · unfold _q_jingleIqReceived
    simp [hset, hact, hstream, hdesc, htrans, newQXmppCall, ringingIq]

/-- C5 at a concrete input: Erin offers audio and Alice accepts what is offered. -/
theorem initiate_accepted_registers_call_witness :
    ∃ (c : QXmppCall) (ringing : QXmppJingleIq),
      c.jid = erinInitiate.from_ ∧ c.sid = erinInitiate.sid ∧
      c.direction = Direction.IncomingDirection ∧
      c.streams = [some { media := "audio", creator := "initiator", name := "voice" }] ∧
      ringing.to_ = erinInitiate.from_ ∧ ringing.sid = erinInitiate.sid ∧
      ringing.type = IqType.Set ∧
      ringing.action = Action.SessionInfo ∧ ringing.ringing = true ∧
      (_q_jingleIqReceived aliceEnv busyManager erinInitiate).d =
        { busyManager with calls := busyManager.calls ++ [c] } ∧
      (_q_jingleIqReceived aliceEnv busyManager erinInitiate).trace =
        [Effect.sendAck c erinInitiate, Effect.registered c, Effect.connectDestroyed c,
         Effect.sendRequest c ringing, Effect.callReceived c] :=
  initiate_accepted_registers_call aliceEnv busyManager erinInitiate
    { media := "audio", creator := "initiator", name := "voice" } rfl rfl (by decide) rfl rfl

/-- A call found by `findCall` is registered and has the SID looked up. -/
theorem findCall_some {d : QXmppCallManagerPrivate} {sid : String} {c : QXmppCall}
    (h : findCall d sid = some c) : c ∈ d.calls ∧ c.sid = sid := by
  unfold findCall at h
  refine ⟨List.mem_of_find?_eq_some h, ?_⟩
  have := List.find?_some h
  simpa using this

/-- When `findCall` finds nothing, no registered call has the SID looked up. -/
theorem findCall_none {d : QXmppCallManagerPrivate} {sid : String}
    (h : findCall d sid = none) : ∀ c ∈ d.calls, c.sid ≠ sid := by
  unfold findCall at h
  intro c hc
  have := List.find?_eq_none.1 h c hc
  simpa using this

/-- C6: for a request of type Set whose action is not session-initiate the private
state, the registry with it, is unchanged; whatever is forwarded is forwarded to
a call with the request's SID; if some registered call has the request's SID the
request is forwarded to the call `findCall` returns for it and nothing else is
done; if no registered call has that SID, the request is dropped with a warning
and nothing is sent or forwarded. -/
theorem request_routed_by_sid (env : Env) (d : QXmppCallManagerPrivate) (iq : QXmppJingleIq)
    (hset : iq.type = IqType.Set) (hact : iq.action ≠ Action.SessionInitiate) :
    (_q_jingleIqReceived env d iq).d = d ∧
      (∀ other req, Effect.handleRequest other req ∈ (_q_jingleIqReceived env d iq).trace →
        other ∈ d.calls ∧ other.sid = iq.sid ∧ req = iq) ∧
      ((∃ c ∈ d.calls, c.sid = iq.sid) →
        ∃ c ∈ d.calls, c.sid = iq.sid ∧ findCall d iq.sid = some c ∧
          (_q_jingleIqReceived env d iq).trace = [Effect.handleRequest c iq]) ∧
      ((∀ c ∈ d.calls, c.sid ≠ iq.sid) →
        (_q_jingleIqReceived env d iq).trace =
          [Effect.warning
            ("Remote party " ++ iq.from_ ++ " sent a request for an unknown call " ++ iq.sid)]) := by
  have hrun : _q_jingleIqReceived env d iq =
      match findCall d iq.sid with
      | none =>
        { d := d
          trace := [Effect.warning
            ("Remote party " ++ iq.from_ ++ " sent a request for an unknown call " ++ iq.sid)] }
      | some c => { d := d, trace := [Effect.handleRequest c iq] } := by
    unfold _q_jingleIqReceived
    simp [hset, hact]
  rw [hrun]
  cases hfind : findCall d iq.sid with
  | none =>
    have hnone := findCall_none hfind
    refine ⟨rfl, ?_, ?_, ?_⟩
    · intro other req hmem
      simp at hmem
    · rintro ⟨c, hc, hsid⟩
      exact absurd hsid (hnone c hc)
    · intro _
      rfl
  | some c =>
    obtain ⟨hc, hsid⟩ := findCall_some hfind
    refine ⟨rfl, ?_, ?_, ?_⟩
    · intro other req hmem
      simp only [List.mem_singleton, Effect.handleRequest.injEq] at hmem
      obtain ⟨h1, h2⟩ := hmem
      subst h1 h2
      exact ⟨hc, hsid, rfl⟩
    · intro _
      exact ⟨c, hc, hsid, rfl, rfl⟩
    · intro hall
      exact absurd hsid (hall c hc)

/-- C6 at concrete inputs: Carol's session-terminate reaches her call and only it;
a session-terminate for an unknown SID is dropped with a warning. -/
theorem request_routed_by_sid_witness :
    (∃ c ∈ busyManager.calls, c.sid = carolTerminate.sid ∧
        findCall busyManager carolTerminate.sid = some c ∧
        (_q_jingleIqReceived aliceEnv busyManager carolTerminate).trace =
          [Effect.handleRequest c carolTerminate]) ∧
      (_q_jingleIqReceived aliceEnv busyManager staleTerminate).trace =
        [Effect.warning ("Remote party " ++ staleTerminate.from_ ++
          " sent a request for an unknown call " ++ staleTerminate.sid)] :=
  ⟨(request_routed_by_sid aliceEnv busyManager carolTerminate rfl (by decide)).2.2.1
      ⟨carolCall, by decide, rfl⟩,
   (request_routed_by_sid aliceEnv busyManager staleTerminate rfl (by decide)).2.2.2
      (by decide)⟩

/-- What is left of the registry after the objects of a list were destroyed: the
calls whose address is not in the list, in their order. -/
theorem disposeAll_calls (objects : List Nat) (d : QXmppCallManagerPrivate) :
    (disposeAll d objects).calls = d.calls.filter (fun c => decide (c.ptr ∉ objects)) := by
  unfold disposeAll
  induction objects generalizing d with
  | nil => simp
  | cons object rest ih =>
    rw [List.foldl_cons, ih]
    simp only [_q_callDestroyed, List.filter_filter]
    apply List.filter_congr
    intro c _
    simp only [List.mem_cons, not_or, ne_eq, decide_not, Bool.and_eq_true,
      Bool.not_eq_true', decide_eq_false_iff_not, Bool.decide_and]
    simp only [Bool.and_comm]

/-- C7 as stated fails: after the disconnect event was handled with the calls to
Bob and from Carol registered, both were terminated with reason `Gone` and both
are still in the registry. -/
theorem disconnected_keeps_registry_counterexample :
    (_q_disconnected busyManager).trace =
        [Effect.terminate bobCall Reason.Gone, Effect.terminate carolCall Reason.Gone] ∧
      (_q_disconnected busyManager).d.calls = [bobCall, carolCall] := by
  decide

/-- C7 (amended): for every private state, handling the disconnect event
terminates every registered call with reason `Gone`, in registry order, does
nothing else, and leaves the private state, the registry with it, as it was.  A
call leaves the registry when it is destroyed: once every one of those calls has
been destroyed, the registry holds none of them (it is empty). -/
theorem disconnected_terminates_all (d : QXmppCallManagerPrivate) :
    (_q_disconnected d).trace = d.calls.map (fun c => Effect.terminate c Reason.Gone) ∧
      terminations (_q_disconnected d).trace = d.calls.map (fun c => (c, Reason.Gone)) ∧
      (_q_disconnected d).d = d ∧
      (∀ (objects : List Nat) (c : QXmppCall),
        c.ptr ∈ objects → c ∉ (disposeAll (_q_disconnected d).d objects).calls) ∧
      (disposeAll (_q_disconnected d).d (d.calls.map (fun c => c.ptr))).calls = [] := by
  refine ⟨rfl, ?_, rfl, ?_, ?_⟩
  · simp only [_q_disconnected]
    induction d.calls with
    | nil => rfl
    | cons c rest ih => simp [terminations, ih]
  · intro objects c hc hmem
    rw [disposeAll_calls] at hmem
    simp only [List.mem_filter, decide_eq_true_eq] at hmem
    exact hmem.2 hc
  · rw [disposeAll_calls]
    simp only [_q_disconnected, List.filter_eq_nil_iff, decide_eq_true_eq, not_not]
    intro c hc
    exact List.mem_map.2 ⟨c, hc, rfl⟩

/-- The Muji bookkeeping of `_q_presenceReceived` leaves the registry alone. -/
theorem presenceMuji_calls (env : Env) (d : QXmppCallManagerPrivate) (p : QXmppPresence) :
    (presenceMuji env d p).d.calls = d.calls := by
  unfold presenceMuji
  split_ifs <;> rfl

/-- The lambda `determineParticipantsPrepared` terminates no call. -/
theorem terminations_determineParticipantsPrepared (env : Env) (d : QXmppCallManagerPrivate)
    (p : QXmppPresence) : terminations (determineParticipantsPrepared env d p) = [] := by
  unfold determineParticipantsPrepared
  dsimp only
  split_ifs <;> rfl

/-- The Muji bookkeeping of `_q_presenceReceived` terminates no call. -/
theorem terminations_presenceMuji (env : Env) (d : QXmppCallManagerPrivate)
    (p : QXmppPresence) : terminations (presenceMuji env d p).trace = [] := by
  unfold presenceMuji
  split_ifs
  · exact terminations_determineParticipantsPrepared env d p
  · rfl
  · exact terminations_determineParticipantsPrepared env _ p
  · rfl

/-- The terminations of two traces, one after the other. -/
theorem terminations_append (xs ys : List Effect) :
    terminations (xs ++ ys) = terminations xs ++ terminations ys := by
  induction xs with
  | nil => rfl
  | cons e rest ih => cases e <;> simp [terminations, ih]

/-- The terminations among a list of `terminate` invocations with one reason. -/
theorem terminations_map_terminate (calls : List QXmppCall) (reason : Reason) :
    terminations (calls.map (fun c => Effect.terminate c reason)) =
      calls.map (fun c => (c, reason)) := by
  induction calls with
  | nil => rfl
  | cons c rest ih => simp [terminations, ih]

/-- C8: for every presence and every private state, the calls the manager
terminates while handling the presence are, when the presence is of type
unavailable, exactly the registered calls whose remote address equals the
sender of the presence, each with reason `Gone` and in registry order, and no
call at all when the presence is of another type; the registry is unchanged. -/
theorem presence_terminates_calls_of_sender (env : Env) (d : QXmppCallManagerPrivate)
    (p : QXmppPresence) :
    terminations (_q_presenceReceived env d p).trace =
        (if p.type = PresenceType.Unavailable then
          (d.calls.filter (fun c => decide (p.from_ = c.jid))).map (fun c => (c, Reason.Gone))
        else []) ∧
      (_q_presenceReceived env d p).d.calls = d.calls := by
  unfold _q_presenceReceived
  refine ⟨?_, presenceMuji_calls env d p⟩
  simp only [terminations_append, terminations_presenceMuji, List.nil_append]
  unfold presenceUnavailable
  rw [presenceMuji_calls]
  split_ifs
  · exact terminations_map_terminate _ _
  · rfl

/-- The prepared events of two traces, one after the other. -/
theorem preparedEvents_append (xs ys : List Effect) :
    preparedEvents (xs ++ ys) = preparedEvents xs ++ preparedEvents ys := by
  induction xs with
  | nil => rfl
  | cons e rest ih => cases e <;> simp [preparedEvents, ih]

/-- Terminating calls emits no prepared event. -/
theorem preparedEvents_presenceUnavailable (d : QXmppCallManagerPrivate) (p : QXmppPresence) :
    preparedEvents (presenceUnavailable d p) = [] := by
  unfold presenceUnavailable
  split_ifs
  · induction d.calls.filter (fun call => decide (p.from_ = call.jid)) with
    | nil => rfl
    | cons c rest ih => simpa [preparedEvents] using ih
  · rfl

/-- The lambda `determineParticipantsPrepared` emits the event, for the bare JID of
the sender, exactly when every recorded participant holds a content list. -/
theorem preparedEvents_determineParticipantsPrepared (env : Env)
    (d : QXmppCallManagerPrivate) (p : QXmppPresence) :
    preparedEvents (determineParticipantsPrepared env d p) =
      if d.mujiParticipantStates.all (fun kv => holdsContents kv.2) = true then
        [env.jidToBareJid p.from_]
      else [] := by
  unfold determineParticipantsPrepared
  dsimp only
  split_ifs <;> rfl

/-- Recording a content list for a participant keeps everybody Ready. -/
theorem all_holdsContents_insert (m : QHash MujiParticipantState) (key : String)
    (contents : List Content) (h : m.all (fun kv => holdsContents kv.2) = true) :
    (QHash.insert m key (MujiParticipantState.Contents contents)).all
      (fun kv => holdsContents kv.2) = true := by
  unfold QHash.insert
  rw [List.all_eq_true] at h ⊢
  intro kv hkv
  rcases List.mem_cons.1 hkv with hhead | htail
  · subst hhead
    rfl
  · exact h kv (List.mem_filter.1 htail).1

/-- C9 as stated fails: Paul announces that he prepares, Rita publishes her
contents, Paul publishes his and the event fires for the room; everybody is
Ready; Rita, already Ready, publishes her contents once more and the event fires
for the room again. -/
theorem prepared_fires_again_counterexample :
    preparedEvents
        (presencesReceived aliceEnv emptyManager [paulPreparing, ritaReady, paulReady]).trace =
        ["room@conf.example.com"] ∧
      (presencesReceived aliceEnv emptyManager
          [paulPreparing, ritaReady, paulReady]).d.mujiParticipantStates.all
        (fun kv => holdsContents kv.2) = true ∧
      preparedEvents
        (_q_presenceReceived aliceEnv
          (presencesReceived aliceEnv emptyManager [paulPreparing, ritaReady, paulReady]).d
          ritaReady).trace = ["room@conf.example.com"] := by
  decide

/-- C9 (amended): when every recorded participant is Ready, handling a further
presence that carries a non-empty content list and not the preparing flag emits
`groupCallParticipantsPrepared` once more, for the bare JID of the sender, and
every recorded participant is Ready afterwards as well: the event fires once for
each such presence, also after it has fired before. -/
theorem prepared_fires_per_ready_presence (env : Env) (d : QXmppCallManagerPrivate)
    (p : QXmppPresence)
    (hall : d.mujiParticipantStates.all (fun kv => holdsContents kv.2) = true)
    (hflag : p.isPreparingMujiSession = false) (hcontents : p.mujiContents ≠ []) :
    preparedEvents (_q_presenceReceived env d p).trace = [env.jidToBareJid p.from_] ∧
      (_q_presenceReceived env d p).d.mujiParticipantStates.all
        (fun kv => holdsContents kv.2) = true := by
  unfold _q_presenceReceived
  simp only [preparedEvents_append, preparedEvents_presenceUnavailable, List.append_nil]
  unfold presenceMuji
  by_cases hself : p.from_ = env.jid
  · simp only [hself, if_true]
    rw [preparedEvents_determineParticipantsPrepared]
    simp [hall, hself]
  · have hready := all_holdsContents_insert d.mujiParticipantStates p.from_ p.mujiContents hall
    simp only [hself, if_false, hflag, Bool.false_eq_true, hcontents, ne_eq, not_false_eq_true,
      if_true]
    rw [preparedEvents_determineParticipantsPrepared]
    simp [hready]

/-- C9 (amended) at a concrete input: Paul is recorded as Ready and publishes his
contents again. -/
theorem prepared_fires_per_ready_presence_witness :
    preparedEvents
        (_q_presenceReceived aliceEnv (_q_presenceReceived aliceEnv emptyManager paulReady).d
          paulReady).trace = [aliceEnv.jidToBareJid paulReady.from_] ∧
      (_q_presenceReceived aliceEnv (_q_presenceReceived aliceEnv emptyManager paulReady).d
          paulReady).d.mujiParticipantStates.all (fun kv => holdsContents kv.2) = true :=
  prepared_fires_per_ready_presence aliceEnv
    (_q_presenceReceived aliceEnv emptyManager paulReady).d paulReady (by decide) rfl
    (by decide)

/-- C10 as stated fails: Quinn, a participant of the lobby, is recorded as
preparing; Paul, the only known participant of the room, publishes his contents.
Afterwards every known participant of the room is Ready, yet the event does not
fire for the room. -/
theorem prepared_blocked_by_other_group_counterexample :
    (_q_presenceReceived aliceEnv lobbyManager paulReady).d.mujiParticipantStates =
        [("room@conf.example.com/paul", MujiParticipantState.Contents paulReady.mujiContents),
         ("lobby@conf.example.com/quinn", MujiParticipantState.Preparing)] ∧
      groupParticipantsReady aliceEnv
        (_q_presenceReceived aliceEnv lobbyManager paulReady).d.mujiParticipantStates
        "room@conf.example.com" = true ∧
      aliceEnv.jidToBareJid paulReady.from_ = "room@conf.example.com" ∧
      preparedEvents (_q_presenceReceived aliceEnv lobbyManager paulReady).trace = [] := by
  decide

/-- C10 (amended): when a presence that carries a non-empty content list and not
the preparing flag, from a sender other than the local identity, is handled, the
sender is recorded as Ready with that list, and `groupCallParticipantsPrepared`
fires, once and for the bare JID of the sender, if and only if every participant
recorded in the one participant map of the manager is then Ready, whatever
group chat the participant belongs to; a recorded participant other than the
sender that is still preparing, of the same or of another group, keeps the
event from firing. -/
theorem prepared_fires_iff_all_recorded_ready (env : Env) (d : QXmppCallManagerPrivate)
    (p : QXmppPresence) (hself : p.from_ ≠ env.jid)
    (hflag : p.isPreparingMujiSession = false) (hcontents : p.mujiContents ≠ []) :
    (_q_presenceReceived env d p).d.mujiParticipantStates =
        QHash.insert d.mujiParticipantStates p.from_
          (MujiParticipantState.Contents p.mujiContents) ∧
      preparedEvents (_q_presenceReceived env d p).trace =
        (if (_q_presenceReceived env d p).d.mujiParticipantStates.all
              (fun kv => holdsContents kv.2) = true then
          [env.jidToBareJid p.from_]
        else []) ∧
      (env.jidToBareJid p.from_ ∈ preparedEvents (_q_presenceReceived env d p).trace ↔
        ∀ kv ∈ (_q_presenceReceived env d p).d.mujiParticipantStates,
          holdsContents kv.2 = true) ∧
      ((∃ kv ∈ d.mujiParticipantStates,
          kv.1 ≠ p.from_ ∧ kv.2 = MujiParticipantState.Preparing) →
        preparedEvents (_q_presenceReceived env d p).trace = []) := by
  have hrun : ∀ d1 : QXmppCallManagerPrivate,
      d1 = { d with mujiParticipantStates := (QHash.insert d.mujiParticipantStates p.from_
              (MujiParticipantState.Contents p.mujiContents)) } →
      _q_presenceReceived env d p =
        { d := d1
          trace := determineParticipantsPrepared env d1 p ++ presenceUnavailable d1 p } := by
    intro d1 hd1
    subst hd1
    unfold _q_presenceReceived presenceMuji
    simp [hself, hflag, hcontents]
  rw [hrun _ rfl]
  simp only [preparedEvents_append, preparedEvents_presenceUnavailable, List.append_nil,
    preparedEvents_determineParticipantsPrepared]
  refine ⟨trivial, trivial, ?_, ?_⟩
  · rw [← List.all_eq_true]
    split_ifs with h
    · simp [h]
    · simp [h]
  · rintro ⟨kv, hkv, hne, hprep⟩
    have hnot : ¬ ((QHash.insert d.mujiParticipantStates p.from_
        (MujiParticipantState.Contents p.mujiContents)).all
          (fun kv => holdsContents kv.2) = true) := by
      intro hall
      rw [List.all_eq_true] at hall
      have hmem : kv ∈ QHash.insert d.mujiParticipantStates p.from_
          (MujiParticipantState.Contents p.mujiContents) := by
        unfold QHash.insert
        exact List.mem_cons_of_mem _ (List.mem_filter.2 ⟨hkv, by simpa using hne⟩)
      have := hall kv hmem
      rw [hprep] at this
      exact absurd this (by decide)
    rw [if_neg hnot]

/-- C10 (amended) at a concrete input: Quinn of the lobby is preparing, Paul of the
room publishes his contents, and no event fires. -/
theorem prepared_fires_iff_all_recorded_ready_witness :
    preparedEvents (_q_presenceReceived aliceEnv lobbyManager paulReady).trace = [] :=
  (prepared_fires_iff_all_recorded_ready aliceEnv lobbyManager paulReady (by decide) rfl
    (by decide)).2.2.2
    ⟨("lobby@conf.example.com/quinn", MujiParticipantState.Preparing), by decide, by decide,
      rfl⟩

/-- After `insert(key, value)` the key is mapped to the value. -/
theorem QHash.find_insert_self {V : Type} (m : QHash V) (key : String) (value : V) :
    QHash.find (QHash.insert m key value) key = some value := by
  simp [QHash.find, QHash.insert]

/-- Dropping the entries of one key does not change what is found for another. -/
theorem QHash.find?_filter_ne {V : Type} (m : QHash V) (key other : String)
    (hne : other ≠ key) :
    List.find? (fun kv => decide (kv.1 = other)) (List.filter (fun kv => decide (kv.1 ≠ key)) m) =
      List.find? (fun kv => decide (kv.1 = other)) m := by
  induction m with
  | nil => rfl
  | cons kv rest ih =>
    by_cases hk : kv.1 = key
    · have hother : ¬ kv.1 = other := fun h => hne (h.symm.trans hk)
      have h1 : decide (kv.1 ≠ key) = false := by simp [hk]
      have h2 : decide (kv.1 = other) = false := by simp [hother]
      rw [List.filter_cons, h1, List.find?_cons, h2]
      exact ih
    · have h1 : decide (kv.1 ≠ key) = true := by simp [hk]
      rw [List.filter_cons, h1]
      by_cases ho : kv.1 = other
      · have h2 : decide (kv.1 = other) = true := by simp [ho]
        simp only [if_true, List.find?_cons, h2]
      · have h2 : decide (kv.1 = other) = false := by simp [ho]
        simp only [if_true, List.find?_cons, h2]
        exact ih

/-- `insert(key, value)` leaves what every other key is mapped to alone. -/
theorem QHash.find_insert_of_ne {V : Type} (m : QHash V) (key other : String) (value : V)
    (hne : other ≠ key) :
    QHash.find (QHash.insert m key value) other = QHash.find m other := by
  have hhead : decide (key = other) = false := by
    simp only [decide_eq_false_iff_not]
    exact fun h => hne h.symm
  unfold QHash.find QHash.insert
  rw [List.find?_cons, hhead]
  simp only
  rw [QHash.find?_filter_ne m key other hne]

/-- The participant map after a presence was handled, by the branch taken. -/
theorem presenceReceived_states (env : Env) (d : QXmppCallManagerPrivate) (p : QXmppPresence) :
    (_q_presenceReceived env d p).d.mujiParticipantStates =
      if p.from_ = env.jid then d.mujiParticipantStates
      else if p.isPreparingMujiSession = true then
        QHash.insert d.mujiParticipantStates p.from_ MujiParticipantState.Preparing
      else if p.mujiContents ≠ [] then
        QHash.insert d.mujiParticipantStates p.from_
          (MujiParticipantState.Contents p.mujiContents)
      else d.mujiParticipantStates := by
  unfold _q_presenceReceived presenceMuji
  split_ifs <;> rfl

/-- The prepared events of a handled presence, by the branch taken. -/
theorem presenceReceived_preparedEvents (env : Env) (d : QXmppCallManagerPrivate)
    (p : QXmppPresence) :
    preparedEvents (_q_presenceReceived env d p).trace =
      if p.from_ = env.jid then
        (if d.mujiParticipantStates.all (fun kv => holdsContents kv.2) = true then
          [env.jidToBareJid p.from_] else [])
      else if p.isPreparingMujiSession = true then []
      else if p.mujiContents ≠ [] then
        (if (QHash.insert d.mujiParticipantStates p.from_
              (MujiParticipantState.Contents p.mujiContents)).all
              (fun kv => holdsContents kv.2) = true then
          [env.jidToBareJid p.from_] else [])
      else [] := by
  unfold _q_presenceReceived
  simp only [preparedEvents_append, preparedEvents_presenceUnavailable, List.append_nil]
  unfold presenceMuji
  by_cases hself : p.from_ = env.jid
  · rw [if_pos hself, if_pos hself]
    exact preparedEvents_determineParticipantsPrepared env d p
  · rw [if_neg hself, if_neg hself]
    by_cases hflag : p.isPreparingMujiSession = true
    · rw [if_pos hflag, if_pos hflag]
      rfl
    · rw [if_neg hflag, if_neg hflag]
      by_cases hc : p.mujiContents ≠ []
      · rw [if_pos hc, if_pos hc]
        exact preparedEvents_determineParticipantsPrepared env _ p
      · rw [if_neg hc, if_neg hc]
        rfl

/-- C11 as stated fails: Paul publishes his contents and is recorded as Ready; a
later presence from Paul carrying the preparing flag records him as preparing
again. -/
theorem ready_reverts_counterexample :
    QHash.find (_q_presenceReceived aliceEnv emptyManager paulReady).d.mujiParticipantStates
        "room@conf.example.com/paul" =
        some (MujiParticipantState.Contents paulReady.mujiContents) ∧
      QHash.find
        (presencesReceived aliceEnv emptyManager
          [paulReady, paulPreparing]).d.mujiParticipantStates
        "room@conf.example.com/paul" = some MujiParticipantState.Preparing := by
  decide

/-- C11 (amended): a participant recorded as Ready is still recorded as Ready (with
some content list) after a later presence is handled, unless that presence comes
from the participant itself, not being the local identity, and carries the
preparing flag; in that case the participant is recorded as preparing again. -/
theorem ready_kept_unless_preparing_again (env : Env) (d : QXmppCallManagerPrivate)
    (p : QXmppPresence) (participant : String) (contents : List Content)
    (hready : QHash.find d.mujiParticipantStates participant =
      some (MujiParticipantState.Contents contents)) :
    ((p.from_ ≠ participant ∨ p.from_ = env.jid ∨ p.isPreparingMujiSession = false) →
        ∃ later, QHash.find (_q_presenceReceived env d p).d.mujiParticipantStates participant =
          some (MujiParticipantState.Contents later)) ∧
      ((p.from_ = participant ∧ p.from_ ≠ env.jid ∧ p.isPreparingMujiSession = true) →
        QHash.find (_q_presenceReceived env d p).d.mujiParticipantStates participant =
          some MujiParticipantState.Preparing) := by
  rw [presenceReceived_states]
  constructor
  · intro h
    by_cases hself : p.from_ = env.jid
    · exact ⟨contents, by rw [if_pos hself]; exact hready⟩
    · rw [if_neg hself]
      by_cases hfrom : p.from_ = participant
      · have hflag : p.isPreparingMujiSession = false := by
          rcases h with h | h | h
          · exact absurd hfrom h
          · exact absurd h hself
          · exact h
        subst hfrom
        by_cases hc : p.mujiContents = []
        · exact ⟨contents, by simp [hflag, hc, hready]⟩
        · exact ⟨p.mujiContents, by simp [hflag, hc, QHash.find_insert_self]⟩
      · have hne : participant ≠ p.from_ := fun h => hfrom h.symm
        refine ⟨contents, ?_⟩
        split_ifs
        · rw [QHash.find_insert_of_ne _ _ _ _ hne]; exact hready
        · rw [QHash.find_insert_of_ne _ _ _ _ hne]; exact hready
        · exact hready
  · rintro ⟨hfrom, hself, hflag⟩
    subst hfrom
    simp [hself, hflag, QHash.find_insert_self]

/-- C11 (amended) at a concrete input: Paul is Ready; Rita's presence leaves him
Ready, and his own preparing presence makes him preparing again. -/
theorem ready_kept_unless_preparing_again_witness :
    (∃ later,
        QHash.find
          (_q_presenceReceived aliceEnv (_q_presenceReceived aliceEnv emptyManager paulReady).d
            ritaReady).d.mujiParticipantStates "room@conf.example.com/paul" =
          some (MujiParticipantState.Contents later)) ∧
      QHash.find
        (_q_presenceReceived aliceEnv (_q_presenceReceived aliceEnv emptyManager paulReady).d
          paulPreparing).d.mujiParticipantStates "room@conf.example.com/paul" =
        some MujiParticipantState.Preparing :=
  ⟨(ready_kept_unless_preparing_again aliceEnv
      (_q_presenceReceived aliceEnv emptyManager paulReady).d ritaReady
      "room@conf.example.com/paul" paulReady.mujiContents (by decide)).1
      (Or.inl (by decide)),
   (ready_kept_unless_preparing_again aliceEnv
      (_q_presenceReceived aliceEnv emptyManager paulReady).d paulPreparing
      "room@conf.example.com/paul" paulReady.mujiContents (by decide)).2
      ⟨rfl, by decide, rfl⟩⟩

/-- C12: starting from no known participant, for two distinct senders P1 and P2,
neither being the local identity, P1 belonging to the group chat `group`:
after a presence from P1 with the preparing flag P1 is recorded as preparing and
no event has fired; after a presence from P2 with a non-empty content list P2
is Ready with that list and still no event has fired; after a presence from P1
with a non-empty content list P1 is Ready with that list, P2 is Ready as before,
and `groupCallParticipantsPrepared` fires exactly once, carrying the bare JID of
the group chat. -/
theorem two_participants_converge_once (env : Env) (d : QXmppCallManagerPrivate)
    (p1 p2 p3 : QXmppPresence) (group : String)
    (hempty : d.mujiParticipantStates = [])
    (hself1 : p1.from_ ≠ env.jid) (hself2 : p2.from_ ≠ env.jid)
    (hdistinct : p1.from_ ≠ p2.from_)
    (hgroup : env.jidToBareJid p1.from_ = group)
    (hflag1 : p1.isPreparingMujiSession = true)
    (hflag2 : p2.isPreparingMujiSession = false) (hcontents2 : p2.mujiContents ≠ [])
    (hfrom3 : p3.from_ = p1.from_)
    (hflag3 : p3.isPreparingMujiSession = false) (hcontents3 : p3.mujiContents ≠ []) :
    QHash.find (_q_presenceReceived env d p1).d.mujiParticipantStates p1.from_ =
        some MujiParticipantState.Preparing ∧
      preparedEvents (_q_presenceReceived env d p1).trace = [] ∧
      QHash.find (presencesReceived env d [p1, p2]).d.mujiParticipantStates p2.from_ =
        some (MujiParticipantState.Contents p2.mujiContents) ∧
      preparedEvents (presencesReceived env d [p1, p2]).trace = [] ∧
      QHash.find (presencesReceived env d [p1, p2, p3]).d.mujiParticipantStates p1.from_ =
        some (MujiParticipantState.Contents p3.mujiContents) ∧
      QHash.find (presencesReceived env d [p1, p2, p3]).d.mujiParticipantStates p2.from_ =
        some (MujiParticipantState.Contents p2.mujiContents) ∧
      preparedEvents (presencesReceived env d [p1, p2, p3]).trace = [group] := by
  have hself3 : p3.from_ ≠ env.jid := by rw [hfrom3]; exact hself1
  have hne21 : ¬ p1.from_ = p2.from_ := hdistinct
  have hne12 : ¬ p2.from_ = p1.from_ := fun h => hdistinct h.symm
  have hs1 : (_q_presenceReceived env d p1).d.mujiParticipantStates =
      [(p1.from_, MujiParticipantState.Preparing)] := by
    rw [presenceReceived_states, if_neg hself1, if_pos hflag1, hempty]
    rfl
  have he1 : preparedEvents (_q_presenceReceived env d p1).trace = [] := by
    rw [presenceReceived_preparedEvents, if_neg hself1, if_pos hflag1]
  have hs2 : (_q_presenceReceived env (_q_presenceReceived env d p1).d p2).d.mujiParticipantStates
      = [(p2.from_, MujiParticipantState.Contents p2.mujiContents),
         (p1.from_, MujiParticipantState.Preparing)] := by
    rw [presenceReceived_states, if_neg hself2, hs1]
    simp [hflag2, hcontents2, QHash.insert, hne21]
  have he2 : preparedEvents (_q_presenceReceived env (_q_presenceReceived env d p1).d p2).trace
      = [] := by
    rw [presenceReceived_preparedEvents, if_neg hself2, hs1]
    simp [hflag2, hcontents2, QHash.insert, hne21, holdsContents]
  have hs3 : (_q_presenceReceived env
      (_q_presenceReceived env (_q_presenceReceived env d p1).d p2).d p3).d.mujiParticipantStates
      = [(p1.from_, MujiParticipantState.Contents p3.mujiContents),
         (p2.from_, MujiParticipantState.Contents p2.mujiContents)] := by
    rw [presenceReceived_states, if_neg hself3, hs2]
    simp [hflag3, hcontents3, QHash.insert, hfrom3, hne12]
  have he3 : preparedEvents (_q_presenceReceived env
      (_q_presenceReceived env (_q_presenceReceived env d p1).d p2).d p3).trace = [group] := by
    rw [presenceReceived_preparedEvents, if_neg hself3, hs2]
    simp [hflag3, hcontents3, QHash.insert, hfrom3, hne12, holdsContents, hgroup]
  refine ⟨?_, he1, ?_, ?_, ?_, ?_, ?_⟩
  · rw [hs1]
    simp [QHash.find]
  · simp only [presencesReceived]
    rw [hs2]
    simp [QHash.find]
  · simp only [presencesReceived, preparedEvents_append, he1, he2, preparedEvents,
      List.append_nil]
  · simp only [presencesReceived]
    rw [hs3]
    simp [QHash.find]
  · simp only [presencesReceived]
    rw [hs3]
    simp [QHash.find, hne21]
  · simp only [presencesReceived, preparedEvents_append, he1, he2, he3, preparedEvents,
      List.append_nil, List.nil_append]

/-- C12 at a concrete input: Paul prepares, Rita publishes two contents, Paul
publishes one content; the event fires once for the room. -/
theorem two_participants_converge_once_witness :
    QHash.find (_q_presenceReceived aliceEnv emptyManager paulPreparing).d.mujiParticipantStates
        paulPreparing.from_ = some MujiParticipantState.Preparing ∧
      preparedEvents (_q_presenceReceived aliceEnv emptyManager paulPreparing).trace = [] ∧
      QHash.find
        (presencesReceived aliceEnv emptyManager
          [paulPreparing, ritaReady]).d.mujiParticipantStates ritaReady.from_ =
        some (MujiParticipantState.Contents ritaReady.mujiContents) ∧
      preparedEvents (presencesReceived aliceEnv emptyManager [paulPreparing, ritaReady]).trace
        = [] ∧
      QHash.find
        (presencesReceived aliceEnv emptyManager
          [paulPreparing, ritaReady, paulReady]).d.mujiParticipantStates paulPreparing.from_ =
        some (MujiParticipantState.Contents paulReady.mujiContents) ∧
      QHash.find
        (presencesReceived aliceEnv emptyManager
          [paulPreparing, ritaReady, paulReady]).d.mujiParticipantStates ritaReady.from_ =
        some (MujiParticipantState.Contents ritaReady.mujiContents) ∧
      preparedEvents
        (presencesReceived aliceEnv emptyManager [paulPreparing, ritaReady, paulReady]).trace =
        ["room@conf.example.com"] :=
  two_participants_converge_once aliceEnv emptyManager paulPreparing ritaReady paulReady
    "room@conf.example.com" rfl (by decide) (by decide) (by decide) (by decide) rfl rfl
    (by decide) rfl rfl (by decide)

/-- C17: for every IQ and every private state, `_q_iqReceived` leaves the private
state (registry, participant states, Muji contents) unchanged; for an IQ of type
Result it passes the IQ to `handleAck` of every registered call, in registry
order, whatever the SID or the sender, and does nothing else; for an IQ of any
other type it does nothing. -/
theorem iqReceived_broadcasts_ack (d : QXmppCallManagerPrivate) (ack : QXmppIq) :
    (_q_iqReceived d ack).d = d ∧
      (_q_iqReceived d ack).trace =
        (if ack.type = IqType.Result then d.calls.map (fun c => Effect.handleAck c ack)
         else []) ∧
      (ack.type = IqType.Result →
        ∀ c ∈ d.calls, Effect.handleAck c ack ∈ (_q_iqReceived d ack).trace) ∧
      (∀ e ∈ (_q_iqReceived d ack).trace, ∃ c ∈ d.calls, e = Effect.handleAck c ack) := by
  unfold _q_iqReceived
  by_cases h : ack.type = IqType.Result
  · simp only [h, ne_eq, not_true_eq_false, if_false, if_true, true_and]
    refine ⟨?_, ?_⟩
    · intro _ c hc
      exact List.mem_map.2 ⟨c, hc, rfl⟩
    · intro e he
      obtain ⟨c, hc, rfl⟩ := List.mem_map.1 he
      exact ⟨c, hc, rfl⟩
  · simp [h]

/-- C17 at a concrete input: an acknowledgement reaches both registered calls. -/
theorem iqReceived_broadcasts_ack_witness :
    (_q_iqReceived busyManager carolAck).d = busyManager ∧
      (_q_iqReceived busyManager carolAck).trace =
        [Effect.handleAck bobCall carolAck, Effect.handleAck carolCall carolAck] := by
  have h := iqReceived_broadcasts_ack busyManager carolAck
  exact ⟨h.1, h.2.1⟩

/-- C18 as stated fails: the call from Carol is registered with SID `sid-9`; Erin
sends a session-initiate with SID `sid-9` that is accepted; afterwards two
registered calls, from Carol and from Erin, have SID `sid-9`. -/
theorem initiate_reused_sid_counterexample :
    sidsUnique carolManager ∧
      registeredSids (_q_jingleIqReceived aliceEnv carolManager erinReusedSid).d =
        ["sid-9", "sid-9"] ∧
      ¬ sidsUnique (_q_jingleIqReceived aliceEnv carolManager erinReusedSid).d := by
  unfold sidsUnique
  decide

/-- The registry after a Jingle IQ was handled: the previous one, or the previous
one followed by one call that carries the SID of a session-initiate request. -/
theorem jingleIqReceived_sids (env : Env) (d : QXmppCallManagerPrivate) (iq : QXmppJingleIq) :
    registeredSids (_q_jingleIqReceived env d iq).d = registeredSids d ∨
      (iq.action = Action.SessionInitiate ∧
        registeredSids (_q_jingleIqReceived env d iq).d = registeredSids d ++ [iq.sid]) := by
  unfold _q_jingleIqReceived
  by_cases hset : iq.type = IqType.Set
  · by_cases hact : iq.action = Action.SessionInitiate
    · simp only [hset, hact, ne_eq, not_true_eq_false, if_false, if_true]
      cases createStream env (offeredContent iq).descriptionMedia (offeredContent iq).creator
          (offeredContent iq).name with
      | none => exact Or.inl rfl
      | some stream =>
        simp only
        split_ifs
        · exact Or.inl rfl
        · exact Or.inr ⟨trivial, by simp [registeredSids, newQXmppCall]⟩
    · simp only [hset, hact, ne_eq, not_true_eq_false, if_false]
      cases findCall d iq.sid <;> exact Or.inl rfl
  · simp only [ne_eq, hset, not_false_eq_true, if_true]
    exact Or.inl trivial

/-- C18 (amended): when no two registered calls share a SID, none do after
`call()` provided the generated SID is not the SID of a registered call, after
an inbound request provided that, if it is a session-initiate, its SID is not
the SID of a registered call, after a call was destroyed, after the disconnect
event, after a presence and after an acknowledgement.  The manager checks
neither the generated SID nor the SID of a session-initiate against the
registry. -/
theorem sid_uniqueness_preserved (env : Env) (d : QXmppCallManagerPrivate)
    (h : sidsUnique d) :
    (∀ jid, env.generateStanzaHash ∉ registeredSids d → sidsUnique (call env d jid).d) ∧
      (∀ iq, (iq.action = Action.SessionInitiate → iq.sid ∉ registeredSids d) →
        sidsUnique (_q_jingleIqReceived env d iq).d) ∧
      (∀ object, sidsUnique (_q_callDestroyed d object)) ∧
      sidsUnique (_q_disconnected d).d ∧
      (∀ p, sidsUnique (_q_presenceReceived env d p).d) ∧
      (∀ ack, sidsUnique (_q_iqReceived d ack).d) := by
  unfold sidsUnique at h ⊢
  refine ⟨?_, ?_, ?_, h, ?_, ?_⟩
  · intro jid hfresh
    unfold call
    split_ifs
    · exact h
    · exact h
    · simp only [registeredSids, List.map_append, List.map_cons, List.map_nil]
      exact List.Nodup.append h (List.nodup_singleton _)
        (by
          simp only [List.disjoint_singleton]
          exact hfresh)
  · intro iq hfresh
    rcases jingleIqReceived_sids env d iq with hsame | ⟨hact, hnew⟩
    · rw [hsame]
      exact h
    · rw [hnew]
      exact List.Nodup.append h (List.nodup_singleton _)
        (by
          simp only [List.disjoint_singleton]
          exact hfresh hact)
  · intro object
    simp only [registeredSids, _q_callDestroyed]
    exact List.Nodup.sublist (List.Sublist.map _ (List.filter_sublist _)) h
  · intro p
    have hcalls : (_q_presenceReceived env d p).d.calls = d.calls :=
      presenceMuji_calls env d p
    simp only [registeredSids, hcalls]
    exact h
  · intro ack
    unfold _q_iqReceived
    split_ifs <;> exact h

/-- Once no lambda is pending, no event does anything. -/
theorem deliverAll_finished (preparation : Preparation) (run : PrepareRun)
    (events : List MujiEvent) (h : run.stage = PrepareStage.finished) :
    deliverAll preparation run events = run := by
  unfold deliverAll
  induction events with
  | nil => rfl
  | cons e rest ih =>
    have hstep : deliver preparation run e = run := by
      cases e <;> simp [deliver, h]
    rw [List.foldl_cons, hstep]
    exact ih

/-- C13: for every group chat, every preparation function and every private state,
when the first send of `prepareGroupCall` finishes with a send error, then,
whatever events follow (emissions of `groupCallParticipantsPrepared` for any
group chat included), the returned future holds exactly that error, the
private state is as it was, and all that was done is the send of the preparing
presence and the report of the error: the preparation function is not invoked,
no slot is connected and no second presence is sent. -/
theorem prepare_fails_with_first_send_error (preparation : Preparation)
    (d : QXmppCallManagerPrivate) (groupChatJid text : String) (events : List MujiEvent) :
    (deliverAll preparation (prepareGroupCall d groupChatJid)
        (MujiEvent.firstSendFinished (SendResult.SendError text) :: events)).result =
        some (SendResult.SendError text) ∧
      (deliverAll preparation (prepareGroupCall d groupChatJid)
        (MujiEvent.firstSendFinished (SendResult.SendError text) :: events)).d = d ∧
      (deliverAll preparation (prepareGroupCall d groupChatJid)
        (MujiEvent.firstSendFinished (SendResult.SendError text) :: events)).trace =
        [MujiEffect.send { newQXmppPresence with
            to_ := groupChatJid, isPreparingMujiSession := true },
         MujiEffect.reportFinishedResult (SendResult.SendError text)] := by
  have hfirst : deliverAll preparation (prepareGroupCall d groupChatJid)
      (MujiEvent.firstSendFinished (SendResult.SendError text) :: events) =
      deliverAll preparation
        (firstSendFinished (prepareGroupCall d groupChatJid) (SendResult.SendError text))
        events := by
    simp [deliverAll, deliver, prepareGroupCall]
  rw [hfirst, deliverAll_finished _ _ _ rfl]
  exact ⟨rfl, rfl, rfl⟩

/-- When no entry matches, the removal loop leaves the list as it is. -/
theorem eraseFirstContent_of_no_match (contentCreator contentName : String)
    (contents : List Content)
    (hnone : ∀ c ∈ contents, ¬ (c.creator = contentCreator ∧ c.name = contentName)) :
    eraseFirstContent contentCreator contentName contents = contents := by
  induction contents with
  | nil => rfl
  | cons c rest ih =>
    have hc := hnone c (List.mem_cons_self _ _)
    rw [eraseFirstContent, if_neg hc, ih (fun x hx => hnone x (List.mem_cons_of_mem _ hx))]

/-- The removal loop erases the first matching entry and nothing else. -/
theorem eraseFirstContent_of_first_match (contentCreator contentName : String)
    (before : List Content) (hit : Content) (after : List Content)
    (hbefore : ∀ c ∈ before, ¬ (c.creator = contentCreator ∧ c.name = contentName))
    (hhit : hit.creator = contentCreator ∧ hit.name = contentName) :
    eraseFirstContent contentCreator contentName (before ++ hit :: after) = before ++ after := by
  induction before with
  | nil =>
    rw [List.nil_append, eraseFirstContent, if_pos hhit, List.nil_append]
  | cons c rest ih =>
    have hc := hbefore c (List.mem_cons_self _ _)
    rw [List.cons_append, eraseFirstContent, if_neg hc,
      ih (fun x hx => hbefore x (List.mem_cons_of_mem _ hx)), List.cons_append]

/-- C15: the removal of `prepareMujiContentRemoval` yields the content list of the
group chat with only its first entry matching creator and name removed, every
other entry, later matching entries included, kept in order; when no entry
matches the list is unchanged; the resulting list is stored for the group chat,
the lists of the other group chats are untouched, and the one presence that is
sent is addressed to the group chat and carries exactly the resulting list. -/
theorem removal_erases_first_match (d : QXmppCallManagerPrivate)
    (groupChatJid contentCreator contentName : String) :
    (∀ before hit after,
        QHash.value d.mujiContents groupChatJid = before ++ hit :: after →
        (∀ c ∈ before, ¬ (c.creator = contentCreator ∧ c.name = contentName)) →
        (hit.creator = contentCreator ∧ hit.name = contentName) →
        QHash.value
          (prepareMujiContentRemoval d groupChatJid contentCreator contentName).d.mujiContents
          groupChatJid = before ++ after) ∧
      ((∀ c ∈ QHash.value d.mujiContents groupChatJid,
          ¬ (c.creator = contentCreator ∧ c.name = contentName)) →
        QHash.value
          (prepareMujiContentRemoval d groupChatJid contentCreator contentName).d.mujiContents
          groupChatJid = QHash.value d.mujiContents groupChatJid) ∧
      (∀ other, other ≠ groupChatJid →
        QHash.value
          (prepareMujiContentRemoval d groupChatJid contentCreator contentName).d.mujiContents
          other = QHash.value d.mujiContents other) ∧
      (prepareMujiContentRemoval d groupChatJid contentCreator contentName).trace =
        [MujiEffect.send { newQXmppPresence with
          to_ := groupChatJid,
          mujiContents := QHash.value
            (prepareMujiContentRemoval d groupChatJid contentCreator contentName).d.mujiContents
            groupChatJid }] := by
  have hstored : QHash.value
      (prepareMujiContentRemoval d groupChatJid contentCreator contentName).d.mujiContents
      groupChatJid =
      eraseFirstContent contentCreator contentName (QHash.value d.mujiContents groupChatJid) := by
    simp [prepareMujiContentRemoval, QHash.value, QHash.find_insert_self]
  refine ⟨?_, ?_, ?_, ?_⟩
  · intro before hit after hsplit hbefore hhit
    rw [hstored, hsplit]
    exact eraseFirstContent_of_first_match _ _ _ _ _ hbefore hhit
  · intro hnone
    rw [hstored]
    exact eraseFirstContent_of_no_match _ _ _ hnone
  · intro other hne
    simp only [prepareMujiContentRemoval, QHash.value]
    rw [QHash.find_insert_of_ne _ _ _ _ hne]
  · rw [hstored]
    rfl

/-- C15 at a concrete input: of two microphone entries only the first is removed,
and the webcam entry between them is kept. -/
theorem removal_erases_first_match_witness :
    QHash.value
        (prepareMujiContentRemoval
          { emptyManager with
            mujiContents := [("room@conf.example.com", [camContent, micContent, camContent,
                                                       micContent])] }
          "room@conf.example.com" "initiator" "microphone").d.mujiContents
        "room@conf.example.com" = [camContent] ++ [camContent, micContent] :=
  (removal_erases_first_match
    { emptyManager with
      mujiContents := [("room@conf.example.com", [camContent, micContent, camContent,
                                                 micContent])] }
    "room@conf.example.com" "initiator" "microphone").1 [camContent] micContent
    [camContent, micContent] (by decide) (by decide) (by decide)

/-- C16 as stated fails: for the room holding the microphone and the webcam
content, `prepareMujiContentRemoval` at once stores the list without the
microphone and sends one presence carrying that list and no preparing flag,
whereas the `prepare` protocol has, at its return, changed nothing and sent a
presence carrying the preparing flag. -/
theorem removal_is_single_round_counterexample :
    prepareMujiContentRemoval roomManager "room@conf.example.com" "initiator" "microphone" =
        { d := { emptyManager with mujiContents := [("room@conf.example.com", [camContent])] },
          trace := [MujiEffect.send { newQXmppPresence with
                      to_ := "room@conf.example.com", mujiContents := [camContent] }] } ∧
      removeContentSpec roomManager "room@conf.example.com" "initiator" "microphone" [] =
        { d := roomManager, stage := PrepareStage.awaitingFirstSend, result := none,
          trace := [MujiEffect.send { newQXmppPresence with
                      to_ := "room@conf.example.com", isPreparingMujiSession := true }] } ∧
      (prepareMujiContentRemoval roomManager "room@conf.example.com" "initiator"
          "microphone").trace ≠
        (removeContentSpec roomManager "room@conf.example.com" "initiator" "microphone"
          []).trace := by
  decide

/-- C16 (amended): `prepareMujiContentRemoval` is not an instance of the two-round
protocol.  It does at once what the second round of `prepareGroupCall` with the
removing mutation does once convergence has fired for the group chat: it stores
the list without the first matching entry and sends one presence, addressed to
the group chat, carrying that list.  It sends no presence with the preparing
flag and connects no slot; the future it returns is the one of that send. -/
theorem removal_does_second_round_at_once (d : QXmppCallManagerPrivate)
    (groupChatJid contentCreator contentName : String) :
    (prepareMujiContentRemoval d groupChatJid contentCreator contentName).d =
        (removalPreparation groupChatJid contentCreator contentName d
          { newQXmppPresence with to_ := groupChatJid }).1 ∧
      (prepareMujiContentRemoval d groupChatJid contentCreator contentName).trace =
        [MujiEffect.send
          (removalPreparation groupChatJid contentCreator contentName d
            { newQXmppPresence with to_ := groupChatJid }).2] ∧
      (∀ p, MujiEffect.send p ∈
          (prepareMujiContentRemoval d groupChatJid contentCreator contentName).trace →
        p.to_ = groupChatJid ∧ p.isPreparingMujiSession = false) ∧
      MujiEffect.connectPrepared ∉
        (prepareMujiContentRemoval d groupChatJid contentCreator contentName).trace ∧
      (removeContentSpec d groupChatJid contentCreator contentName
          [MujiEvent.firstSendFinished SendResult.SendSuccess,
           MujiEvent.groupCallParticipantsPrepared groupChatJid]).d =
        (prepareMujiContentRemoval d groupChatJid contentCreator contentName).d ∧
      (removeContentSpec d groupChatJid contentCreator contentName
          [MujiEvent.firstSendFinished SendResult.SendSuccess,
           MujiEvent.groupCallParticipantsPrepared groupChatJid]).trace =
        [MujiEffect.send { newQXmppPresence with
            to_ := groupChatJid, isPreparingMujiSession := true },
         MujiEffect.connectPrepared,
         MujiEffect.disconnectPrepared,
         MujiEffect.preparation { newQXmppPresence with to_ := groupChatJid }] ++
        (prepareMujiContentRemoval d groupChatJid contentCreator contentName).trace := by
  refine ⟨rfl, rfl, ?_, ?_, ?_, ?_⟩
  · intro p hp
    simp only [prepareMujiContentRemoval, List.mem_singleton, MujiEffect.send.injEq] at hp
    subst hp
    exact ⟨rfl, rfl⟩
  · simp [prepareMujiContentRemoval]
  · simp [removeContentSpec, deliverAll, deliver, prepareGroupCall, firstSendFinished,
      preparedSlot, prepareMujiContentRemoval, removalPreparation]
  · simp [removeContentSpec, deliverAll, deliver, prepareGroupCall, firstSendFinished,
      preparedSlot, prepareMujiContentRemoval, removalPreparation]

/-- C19: whenever `handleStanza` accepts a vCard IQ it emits exactly one signal.
A result from a contact (sender neither empty nor the own bare JID) emits
`contactVCardReceived` with the received IQ; a cancel error with condition
service-unavailable emits `noContactVCardExists`; a cancel error with condition
item-not-found emits `noOwnVCardExists`; an IQ that is not a cancel error, whose
sender is empty or the own bare JID, emits `noOwnVCardExists` when it equals the
empty vCard and `ownVCardReceived` with the received IQ when it does not. -/
theorem vcard_accepted_emits_one_signal (env : VCardEnv) (d : QXmppVCardManagerPrivate)
    (element : QDomElement)
    (haccept : (QXmppVCardManager.handleStanza env d element).accepted = true) :
    (∃ signal, (QXmppVCardManager.handleStanza env d element).trace = [signal]) ∧
      (element.vCardIq.type = IqType.Result → element.vCardIq.from_ ≠ "" →
        element.vCardIq.from_ ≠ env.jidBare →
        (QXmppVCardManager.handleStanza env d element).trace =
          [VCardSignal.contactVCardReceived element.vCardIq]) ∧
      (element.vCardIq.type = IqType.Error → element.vCardIq.error.type = ErrorType.Cancel →
        element.vCardIq.error.condition = ErrorCondition.ServiceUnavailable →
        (QXmppVCardManager.handleStanza env d element).trace =
          [VCardSignal.noContactVCardExists]) ∧
      (element.vCardIq.type = IqType.Error → element.vCardIq.error.type = ErrorType.Cancel →
        element.vCardIq.error.condition = ErrorCondition.ItemNotFound →
        (QXmppVCardManager.handleStanza env d element).trace =
          [VCardSignal.noOwnVCardExists]) ∧
      (¬ (element.vCardIq.type = IqType.Error ∧
            element.vCardIq.error.type = ErrorType.Cancel) →
        (element.vCardIq.from_ = "" ∨ element.vCardIq.from_ = env.jidBare) →
        env.equalsEmptyVCardIq element.vCardIq = true →
        (QXmppVCardManager.handleStanza env d element).trace =
          [VCardSignal.noOwnVCardExists]) ∧
      (¬ (element.vCardIq.type = IqType.Error ∧
            element.vCardIq.error.type = ErrorType.Cancel) →
        (element.vCardIq.from_ = "" ∨ element.vCardIq.from_ = env.jidBare) →
        env.equalsEmptyVCardIq element.vCardIq = false →
        (QXmppVCardManager.handleStanza env d element).trace =
          [VCardSignal.ownVCardReceived element.vCardIq]) := by
  have hguard : element.tagName = "iq" ∧ element.isVCard = true := by
    by_contra hno
    simp [QXmppVCardManager.handleStanza, hno] at haccept
  refine ⟨?_, ?_, ?_, ?_, ?_, ?_⟩
  · unfold QXmppVCardManager.handleStanza at haccept ⊢
    rw [if_pos hguard] at haccept ⊢
    by_cases herr : element.vCardIq.type = IqType.Error ∧
        element.vCardIq.error.type = ErrorType.Cancel
    · rw [if_pos herr] at haccept ⊢
      cases hcond : element.vCardIq.error.condition with
      | ServiceUnavailable => exact ⟨_, rfl⟩
      | ItemNotFound => exact ⟨_, rfl⟩
      | Other code =>
        rw [hcond] at haccept
        simp at haccept
    · rw [if_neg herr]
      split_ifs
      · exact ⟨_, rfl⟩
      · exact ⟨_, rfl⟩
      · exact ⟨_, rfl⟩
  · intro htype hne hother
    have herr : ¬ (element.vCardIq.type = IqType.Error ∧
        element.vCardIq.error.type = ErrorType.Cancel) := by
      rw [htype]
      exact fun h => absurd h.1 (by decide)
    have hown : ¬ (element.vCardIq.from_ = "" ∨ element.vCardIq.from_ = env.jidBare) :=
      fun h => h.elim hne hother
    unfold QXmppVCardManager.handleStanza
    rw [if_pos hguard, if_neg herr, if_neg hown]
  · intro htype hcancel hcond
    unfold QXmppVCardManager.handleStanza
    rw [if_pos hguard, if_pos ⟨htype, hcancel⟩, hcond]
  · intro htype hcancel hcond
    unfold QXmppVCardManager.handleStanza
    rw [if_pos hguard, if_pos ⟨htype, hcancel⟩, hcond]
  · intro herr hown hempty
    unfold QXmppVCardManager.handleStanza
    rw [if_pos hguard, if_neg herr, if_pos hown]
    simp [hempty]
  · intro herr hown hempty
    unfold QXmppVCardManager.handleStanza
    rw [if_pos hguard, if_neg herr, if_pos hown]
    simp [hempty]

/-- C19 at a concrete input: the row `iqForContactVCard` of the test is accepted and
emits `contactVCardReceived` with the received IQ, and nothing else. -/
theorem vcard_accepted_emits_one_signal_witness :
    (QXmppVCardManager.handleStanza peterEnv (QXmppVCardManager.new peterEnv)
        iqForContactVCard).trace =
      [VCardSignal.contactVCardReceived iqForContactVCard.vCardIq] :=
  (vcard_accepted_emits_one_signal peterEnv (QXmppVCardManager.new peterEnv) iqForContactVCard
    (by decide)).2.1 rfl (by decide) (by decide)

/-- C20 as stated fails: a vCard IQ without sender that carries a full name and a
cancel error with another condition than the two handled ones is not a handled
error, has an empty sender and does not equal the empty vCard, yet a fresh
manager rejects it and `isOwnVCardReceived()` stays false. -/
theorem vcard_unhandled_cancel_error_counterexample :
    iqWithOtherCancelError.vCardIq.error.condition ≠ ErrorCondition.ServiceUnavailable ∧
      iqWithOtherCancelError.vCardIq.error.condition ≠ ErrorCondition.ItemNotFound ∧
      iqWithOtherCancelError.vCardIq.from_ = "" ∧
      peterEnv.equalsEmptyVCardIq iqWithOtherCancelError.vCardIq = false ∧
      (QXmppVCardManager.handleStanza peterEnv (QXmppVCardManager.new peterEnv)
        iqWithOtherCancelError).accepted = false ∧
      (QXmppVCardManager.handleStanza peterEnv (QXmppVCardManager.new peterEnv)
        iqWithOtherCancelError).d.isOwnVCardReceived = false := by
  decide

/-- C20 (amended): for a freshly constructed manager and every vCard IQ passed to
`handleStanza`, afterwards `isOwnVCardReceived()` is true if and only if the IQ
is not a cancel error (handled or not), its sender is empty or the own bare
JID, and it does not equal the empty vCard; in that case `ownVCard()` is the
received IQ; in every other case (contact vCard, cancel error of any
condition, empty own vCard) `ownVCard()` is the default-constructed vCard or
compares equal to it. -/
theorem vcard_own_state_of_fresh_manager (env : VCardEnv) (element : QDomElement)
    (htag : element.tagName = "iq") (hvcard : element.isVCard = true) :
    ((QXmppVCardManager.handleStanza env (QXmppVCardManager.new env)
          element).d.isOwnVCardReceived = true ↔
        (¬ (element.vCardIq.type = IqType.Error ∧
              element.vCardIq.error.type = ErrorType.Cancel) ∧
          (element.vCardIq.from_ = "" ∨ element.vCardIq.from_ = env.jidBare) ∧
          env.equalsEmptyVCardIq element.vCardIq = false)) ∧
      ((QXmppVCardManager.handleStanza env (QXmppVCardManager.new env)
          element).d.isOwnVCardReceived = true →
        (QXmppVCardManager.handleStanza env (QXmppVCardManager.new env) element).d.ownVCard =
          element.vCardIq) ∧
      ((QXmppVCardManager.handleStanza env (QXmppVCardManager.new env)
          element).d.isOwnVCardReceived = false →
        (QXmppVCardManager.handleStanza env (QXmppVCardManager.new env) element).d.ownVCard =
            env.emptyVCardIq ∨
          env.equalsEmptyVCardIq
            (QXmppVCardManager.handleStanza env (QXmppVCardManager.new env)
              element).d.ownVCard = true) := by
  have hguard : element.tagName = "iq" ∧ element.isVCard = true := ⟨htag, hvcard⟩
  unfold QXmppVCardManager.handleStanza
  rw [if_pos hguard]
  by_cases herr : element.vCardIq.type = IqType.Error ∧
      element.vCardIq.error.type = ErrorType.Cancel
  · rw [if_pos herr]
    cases element.vCardIq.error.condition <;>
      simp [QXmppVCardManager.new, herr]
  · rw [if_neg herr]
    by_cases hown : element.vCardIq.from_ = "" ∨ element.vCardIq.from_ = env.jidBare
    · rw [if_pos hown]
      by_cases hempty : env.equalsEmptyVCardIq element.vCardIq = true
      · simp [QXmppVCardManager.new, herr, hown, hempty]
      · have hfalse : env.equalsEmptyVCardIq element.vCardIq = false := by
          simpa using hempty
        simp [QXmppVCardManager.new, herr, hown, hfalse]
    · rw [if_neg hown]
      simp [QXmppVCardManager.new, herr, hown]

/-- C20 (amended) at a concrete input: the row `iqWithFromAttributeForOwnVCard` of
the test makes `isOwnVCardReceived()` true and `ownVCard()` the received IQ. -/
theorem vcard_own_state_of_fresh_manager_witness :
    (QXmppVCardManager.handleStanza peterEnv (QXmppVCardManager.new peterEnv)
        iqWithFromAttributeForOwnVCard).d.isOwnVCardReceived = true ∧
      (QXmppVCardManager.handleStanza peterEnv (QXmppVCardManager.new peterEnv)
        iqWithFromAttributeForOwnVCard).d.ownVCard = iqWithFromAttributeForOwnVCard.vCardIq :=
  ⟨(vcard_own_state_of_fresh_manager peterEnv iqWithFromAttributeForOwnVCard rfl rfl).1.2
      (by decide),
   (vcard_own_state_of_fresh_manager peterEnv iqWithFromAttributeForOwnVCard rfl rfl).2.1
      (by decide)⟩

/-- C18 (amended) at a concrete input: with only the call from Carol registered,
SIDs stay unique when Alice calls Dave with the generated SID `sid-42` and when
the session-initiate from Erin with SID `sid-77` is accepted. -/
theorem sid_uniqueness_preserved_witness :
    sidsUnique (call aliceEnv carolManager "dave@example.com").d ∧
      sidsUnique (_q_jingleIqReceived aliceEnv carolManager erinInitiate).d :=
  ⟨(sid_uniqueness_preserved aliceEnv carolManager (by unfold sidsUnique; decide)).1
      "dave@example.com" (by decide),
   (sid_uniqueness_preserved aliceEnv carolManager (by unfold sidsUnique; decide)).2.1
      erinInitiate (fun _ => by decide)⟩

end QXmpp
